import Mathlib

/-!
# docui panel core (`panel/gui.go`): focus cycling, overlays and scroll primitives

A shallow embedding of `panel/gui.go`.  Go pointers to mutable structs become explicit
state passing, Go `int` becomes `Int` (with truncating division and remainder), and a Go
`panic` becomes the `error` case of `Except Panic`.

The terminal library `github.com/jroimartin/gocui` is an external collaborator of the
package; the part of its behaviour that `gui.go` relies on (views, the current view,
key bindings, cursor and origin of a view, reading a line) is modelled in namespace
`gocui`.
-/

set_option autoImplicit false

/-! ## The rendering/input collaborator

The definitions of this namespace follow `gui.go`, `view.go` and `keybinding.go` of
`github.com/jroimartin/gocui`, the library that `panel/gui.go` imports (spec §6:
"create or get view at rectangle", "set current/top view", "bind key to action",
"delete view", "delete bindings for view", "read line N of a view's content",
"get/set cursor and origin coordinates").  Colours, frames, the editor and the draw
loop are left out; a view's buffer is a list of strings.
-/

namespace gocui

/-- Errors returned by the library. -/
inductive Error where
  | ErrUnknownView
  | ErrQuit
  | invalidPoint
  | invalidDimensions
  | invalidName
  deriving DecidableEq, Repr

/-- Keys that `gui.go` binds: a rune, or one of the special keys it names. -/
inductive Key where
  | rune (ch : Char)
  | KeyTab
  | KeyEnter
  | KeyCtrlQ
  deriving DecidableEq, Repr

/-- A key handler is a Go function value `func(*gocui.Gui, *gocui.View) error`.  The
handlers that `gui.go` binds are its own methods; a handler supplied by a caller
(the accept action of a confirm overlay) is represented by an identifier. -/
inductive Handler where
  | quit
  | prePanel
  | nextPanel
  | CloseMessage
  | CloseConfirmMessage
  | callback (id : Nat)
  deriving DecidableEq, Repr

/-- An entry of `View.viewLines`: which buffer line a rendered row shows. -/
structure viewLine where
  linesX : Int
  linesY : Int
  deriving DecidableEq, Repr

/-- The fields of `gocui.View` that `gui.go` reads or writes. -/
structure View where
  name : String
  x0 : Int
  y0 : Int
  x1 : Int
  y1 : Int
  ox : Int
  oy : Int
  cx : Int
  cy : Int
  lines : List String
  viewLines : List viewLine
  Wrap : Bool
  Title : String
  deriving DecidableEq, Repr

/-- A key binding: view name, key and handler. -/
structure keybinding where
  viewname : String
  key : Key
  handler : Handler
  deriving DecidableEq, Repr

/-- The fields of `gocui.Gui` that `gui.go` relies on.  `views` is ordered bottom to
top; `currentView` is a pointer in the library and is represented by the view's name;
`maxX`, `maxY` are what `Size()` returns. -/
structure Gui where
  views : List View
  currentView : Option String
  keybindings : List keybinding
  maxX : Int
  maxY : Int
  deriving DecidableEq, Repr

/-- Library `newView`: a fresh view with empty buffer, cursor and origin at zero. -/
def newView (name : String) (x0 y0 x1 y1 : Int) : View :=
  { name := name, x0 := x0, y0 := y0, x1 := x1, y1 := y1,
    ox := 0, oy := 0, cx := 0, cy := 0,
    lines := [], viewLines := [], Wrap := false, Title := "" }

/-- Library `View.Size`: the number of visible columns and rows. -/
def View.Size (v : View) : Int × Int :=
  (v.x1 - v.x0 - 1, v.y1 - v.y0 - 1)

/-- Library `View.Cursor`. -/
def View.Cursor (v : View) : Int × Int := (v.cx, v.cy)

/-- Library `View.Origin`. -/
def View.Origin (v : View) : Int × Int := (v.ox, v.oy)

/-- Library `View.SetCursor`: rejects a point outside the visible window. -/
def View.SetCursor (v : View) (x y : Int) : View × Option Error :=
  let (maxX, maxY) := v.Size
  if x < 0 ∨ x ≥ maxX ∨ y < 0 ∨ y ≥ maxY then (v, some Error.invalidPoint)
  else ({ v with cx := x, cy := y }, none)

/-- Library `View.SetOrigin`: rejects a negative point. -/
def View.SetOrigin (v : View) (x y : Int) : View × Option Error :=
  if x < 0 ∨ y < 0 then (v, some Error.invalidPoint)
  else ({ v with ox := x, oy := y }, none)

/-- Library `View.realPosition`: the buffer position shown at point `(vx, vy)` of the view. -/
def View.realPosition (v : View) (vx vy : Int) : Except Error (Int × Int) :=
  let vx := v.ox + vx
  let vy := v.oy + vy
  if vx < 0 ∨ vy < 0 then Except.error Error.invalidPoint
  else if v.viewLines.length = 0 then Except.ok (vx, vy)
  else if vy < (v.viewLines.length : Int) then
    let vline := v.viewLines.getD vy.toNat ⟨0, 0⟩
    Except.ok (vline.linesX + vx, vline.linesY)
  else
    let vline := v.viewLines.getD (v.viewLines.length - 1) ⟨0, 0⟩
    Except.ok (vx, vline.linesY + vy - (v.viewLines.length : Int) + 1)

/-- Library `View.Line`: the buffer line shown at row `y` of the view. -/
def View.Line (v : View) (y : Int) : Except Error String :=
  match v.realPosition 0 y with
  | Except.error e => Except.error e
  | Except.ok (_, y) =>
    if y < 0 ∨ y ≥ (v.lines.length : Int) then Except.error Error.invalidPoint
    else Except.ok (v.lines.getD y.toNat "")

/-- Library `View.Clear`: empties the buffer. -/
def View.Clear (v : View) : View :=
  { v with lines := [], viewLines := [] }

/-- One rune of `View.Write`: a newline opens a new buffer line, a carriage return
empties the last line, any other rune is appended to the last line.  (Escape
sequences, which the library interprets as colours, are not modelled.) -/
def writeRune (lines : List String) (ch : Char) : List String :=
  if ch = '\n' then lines ++ [""]
  else if ch = '\r' then
    (if lines.length > 0 then lines.dropLast ++ [""] else [""])
  else
    (if lines.length > 0 then lines.dropLast ++ [(lines.getLastD "").push ch]
     else [String.singleton ch])

/-- Library `View.Write`, as used by `fmt.Fprint(v, message)`. -/
def View.Write (v : View) (p : String) : View :=
  { v with lines := p.data.foldl writeRune v.lines }

/-- Library `Gui.Size`. -/
def Gui.Size (g : Gui) : Int × Int := (g.maxX, g.maxY)

/-- Library `Gui.View`: the first view of that name. -/
def Gui.View (g : Gui) (name : String) : Option View :=
  g.views.find? (fun v => v.name = name)

/-- Apply `f` to the first view named `name` (a write through the `*View` pointer). -/
def modifyFirst (name : String) (f : View → View) : List View → List View
  | [] => []
  | v :: vs => if v.name = name then f v :: vs else v :: modifyFirst name f vs

/-- Remove the first view named `name`. -/
def removeFirst (name : String) : List View → List View
  | [] => []
  | v :: vs => if v.name = name then vs else v :: removeFirst name vs

/-- A write through a `*View` pointer obtained from the Gui. -/
def Gui.modifyView (g : Gui) (name : String) (f : gocui.View → gocui.View) : Gui :=
  { g with views := modifyFirst name f g.views }

/-- Library `Gui.SetView`: resizes the view if it exists (no error), otherwise creates it and
returns it together with `ErrUnknownView`. -/
def Gui.SetView (g : Gui) (name : String) (x0 y0 x1 y1 : Int) :
    Gui × Option gocui.View × Option Error :=
  if x0 ≥ x1 ∨ y0 ≥ y1 then (g, none, some Error.invalidDimensions)
  else if name = "" then (g, none, some Error.invalidName)
  else
    match g.View name with
    | some v =>
      let v1 := { v with x0 := x0, y0 := y0, x1 := x1, y1 := y1 }
      (g.modifyView name (fun _ => v1), some v1, none)
    | none =>
      let v := newView name x0 y0 x1 y1
      ({ g with views := g.views ++ [v] }, some v, some Error.ErrUnknownView)

/-- Library `Gui.SetViewOnTop`: moves the first view of that name to the end of `views`. -/
def Gui.SetViewOnTop (g : Gui) (name : String) : Gui × Option gocui.View × Option Error :=
  match g.View name with
  | some v => ({ g with views := removeFirst name g.views ++ [v] }, some v, none)
  | none => (g, none, some Error.ErrUnknownView)

/-- Library `Gui.SetCurrentView`. -/
def Gui.SetCurrentView (g : Gui) (name : String) : Gui × Option gocui.View × Option Error :=
  match g.View name with
  | some v => ({ g with currentView := some name }, some v, none)
  | none => (g, none, some Error.ErrUnknownView)

/-- Library `Gui.DeleteView`: removes the first view of that name. -/
def Gui.DeleteView (g : Gui) (name : String) : Gui × Option Error :=
  match g.View name with
  | some _ => ({ g with views := removeFirst name g.views }, none)
  | none => (g, some Error.ErrUnknownView)

/-- Library `Gui.SetKeybinding`: appends a binding (every `Key` is a valid key). -/
def Gui.SetKeybinding (g : Gui) (viewname : String) (key : Key) (handler : Handler) :
    Gui × Option Error :=
  ({ g with keybindings := g.keybindings ++ [⟨viewname, key, handler⟩] }, none)

/-- Library `Gui.DeleteKeybindings`: drops every binding of that view. -/
def Gui.DeleteKeybindings (g : Gui) (viewname : String) : Gui :=
  { g with keybindings := g.keybindings.filter (fun kb => kb.viewname ≠ viewname) }

/-- The names of the views, bottom to top. -/
def Gui.viewNames (g : Gui) : List String := g.views.map (fun v => v.name)

end gocui


/-! ## Package `panel` -/

namespace panel

def ImageListPanel : String := "image list"
def PullImagePanel : String := "pull image"
def ContainerListPanel : String := "container list"
def DetailPanel : String := "detail"
def CreateContainerPanel : String := "create container"
def ErrMessagePanel : String := "error message"
def SaveImagePanel : String := "save image"
def ImportImagePanel : String := "import image"
def LoadImagePanel : String := "load image"
def ExportContainerPanel : String := "export container"
def CommitContainerPanel : String := "commit container"
def RenameContainerPanel : String := "rename container"
def ConfirmMessagePanel : String := "confirm"
def StateMessagePanel : String := "state"
def SearchImagePanel : String := "search images"
def SearchImageResultPanel : String := "images"
def VolumeListPanel : String := "volume list"
def CreateVolumePanel : String := "create volume"
def NavigatePanel : String := "navigate"

/-- A Go run-time panic: `panic(err)` / `log.Panicln(err)` on a library error, a failed
type assertion, an index out of range, an integer division by zero, or a nil
pointer dereference. -/
inductive Panic where
  | err (e : gocui.Error)
  | typeAssertion
  | indexOutOfRange
  | divideByZero
  | nilPointer
  deriving DecidableEq, Repr

/-- Source `Position`. -/
structure Position where
  x : Int
  y : Int
  w : Int
  h : Int
  deriving DecidableEq, Repr

/-- Modelled from the spec: the concrete panel types implementing the `Panel`
interface are declared in files that are not under src/.  Spec §3 lists the variants
"ImageList, ContainerList, VolumeList, Detail, Navigate"; `Input` stands for any
other panel type of the package. -/
inductive PanelType where
  | ImageList
  | ContainerList
  | VolumeList
  | Detail
  | Navigate
  | Input
  deriving DecidableEq, Repr

/-- Modelled from the spec: a value of the `Panel` interface.  The implementing
structs are not under src/; spec §3: "Each panel owns its geometry", "names double
as lookup keys and as view identifiers at the rendering boundary".  `name` is what
`Name()` returns. -/
structure Panel where
  type : PanelType
  name : String
  pos : Position
  deriving DecidableEq, Repr

/-- Source `Panel.Name()`. -/
def Panel.Name (p : Panel) : String := p.name

/-- Modelled from the spec: the backend collaborator `docker.Docker` is not under
src/.  Spec §6: it "exposes list/create/delete/inspect operations per resource
kind"; `fetch` is the text a panel renders on refresh. -/
structure Docker where
  fetch : String → String

/-- Source `Gui`: the embedded `*gocui.Gui`, the backend, the registry `Panels` (a Go map,
kept as an association list with unique keys), the cyclable sequence `PanelNames`,
`NextPanel` and `active`. -/
structure Gui extends gocui.Gui where
  Docker : Docker
  Panels : List (String × Panel)
  PanelNames : List String
  NextPanel : String
  active : Int

/-- Map read `m[key]`. -/
def mapGet (m : List (String × Panel)) (key : String) : Option Panel :=
  (m.find? (fun e => e.1 = key)).map (fun e => e.2)

/-- Map write `m[key] = p`: overwrite the entry of that key, or add one. -/
def mapSet : List (String × Panel) → String → Panel → List (String × Panel)
  | [], key, p => [(key, p)]
  | e :: m, key, p => if e.1 = key then (key, p) :: m else e :: mapSet m key p

/-- Slice read `s[i]` with Go's bounds check. -/
def sliceGet (s : List String) (i : Int) : Except Panic String :=
  if i < 0 ∨ i ≥ (s.length : Int) then Except.error Panic.indexOutOfRange
  else Except.ok (s.getD i.toNat "")

/-- Go's `a % b` on `int`: truncated remainder, panics when `b = 0`. -/
def goMod (a b : Int) : Except Panic Int :=
  if b = 0 then Except.error Panic.divideByZero else Except.ok (a.tmod b)

/-- Source `strings.Trim(s, " ")`: strip leading and trailing spaces. -/
def trimSpaces (s : String) : String :=
  String.mk (((s.data.dropWhile (fun c => c = ' ')).reverse.dropWhile
    (fun c => c = ' ')).reverse)

/-- Source `AddPanelNames`. -/
def Gui.AddPanelNames (g : Gui) (panel : Panel) : Gui :=
  let name := panel.Name
  { g with PanelNames := g.PanelNames ++ [name] }

/-- The literal map `storeTarget` of `StorePanels`; a missing key reads as `false`. -/
def storeTarget (name : String) : Bool :=
  name = ImageListPanel ∨ name = ContainerListPanel ∨ name = DetailPanel ∨
    name = VolumeListPanel

/-- Source `StorePanels`. -/
def Gui.StorePanels (g : Gui) (panel : Panel) : Gui :=
  let g := { g with Panels := mapSet g.Panels panel.Name panel }
  if storeTarget panel.Name then g.AddPanelNames panel else g

/-- Source `SetKeyBindingToPanel`. -/
def Gui.SetKeyBindingToPanel (g : gocui.Gui) (panel : String) : Except Panic gocui.Gui :=
  match g.SetKeybinding panel (gocui.Key.rune 'q') gocui.Handler.quit with
  | (_, some e) => Except.error (Panic.err e)
  | (g, none) =>
  match g.SetKeybinding panel (gocui.Key.rune 'h') gocui.Handler.prePanel with
  | (_, some e) => Except.error (Panic.err e)
  | (g, none) =>
  match g.SetKeybinding panel (gocui.Key.rune 'l') gocui.Handler.nextPanel with
  | (_, some e) => Except.error (Panic.err e)
  | (g, none) =>
  match g.SetKeybinding panel gocui.Key.KeyTab gocui.Handler.nextPanel with
  | (_, some e) => Except.error (Panic.err e)
  | (g, none) => Except.ok g

/-- Source `SetGlobalKeyBinding`. -/
def Gui.SetGlobalKeyBinding (g : gocui.Gui) : Except Panic gocui.Gui :=
  match g.SetKeybinding "" gocui.Key.KeyCtrlQ gocui.Handler.quit with
  | (_, some e) => Except.error (Panic.err e)
  | (g, none) => Except.ok g

/-- Modelled from the spec: `Navigate.SetNavi` is not under src/.  Spec §4.2 (b):
every transition "updates the navigation/status bar panel to display the new active
panel's name"; §7 (a): a view the core manages that is not found is fatal. -/
def Navigate.SetNavi (navi : Panel) (g : gocui.Gui) (name : String) :
    Except Panic (gocui.Gui × gocui.View) :=
  match g.View navi.Name with
  | none => Except.error (Panic.err gocui.Error.ErrUnknownView)
  | some v =>
    let v1 := v.Clear.Write name
    Except.ok (g.modifyView navi.Name (fun _ => v1), v1)

/-- Source `SetNaviWithPanelName`: the type assertion `g.Panels[NavigatePanel].(Navigate)`
panics when the entry is missing or holds another panel type. -/
def Gui.SetNaviWithPanelName (g : Gui) (name : String) : Except Panic (Gui × gocui.View) :=
  match mapGet g.Panels NavigatePanel with
  | none => Except.error Panic.typeAssertion
  | some navi =>
    if navi.type ≠ PanelType.Navigate then Except.error Panic.typeAssertion
    else
      match Navigate.SetNavi navi g.toGui name with
      | Except.error e => Except.error e
      | Except.ok (g1, v) => Except.ok ({ g with toGui := g1 }, v)

/-- Source `SetCurrentPanel`. -/
def SetCurrentPanel (g : gocui.Gui) (name : String) :
    gocui.Gui × Option gocui.View × Option gocui.Error :=
  match g.SetCurrentView name with
  | (g1, _, some err) => (g1, none, some err)
  | (g1, _, none) => g1.SetViewOnTop name

/-- Source `SwitchPanel`: returns the view that `SetCurrentPanel` returned. -/
def Gui.SwitchPanel (gui : Gui) (next : String) : Except Panic (Gui × Option gocui.View) :=
  match SetCurrentPanel gui.toGui next with
  | (_, _, some err) => Except.error (Panic.err err)
  | (g1, v, none) =>
    match Gui.SetNaviWithPanelName { gui with toGui := g1 } next with
    | Except.error e => Except.error e
    | Except.ok (gui1, _) => Except.ok (gui1, v)

/-- Source `nextPanel` (the handler always returns a nil error). -/
def Gui.nextPanel (gui : Gui) : Except Panic Gui :=
  match goMod (gui.active + 1) (gui.PanelNames.length : Int) with
  | Except.error e => Except.error e
  | Except.ok nextIndex =>
    match sliceGet gui.PanelNames nextIndex with
    | Except.error e => Except.error e
    | Except.ok name =>
      match gui.SwitchPanel name with
      | Except.error e => Except.error e
      | Except.ok (gui1, _) => Except.ok { gui1 with active := nextIndex }

/-- The index computation of `prePanel`. -/
def prePanelIndex (gui : Gui) : Except Panic Int :=
  let nextIndex := gui.active - 1
  if nextIndex < 0 then Except.ok ((gui.PanelNames.length : Int) - 1)
  else goMod (gui.active - 1) (gui.PanelNames.length : Int)

/-- Source `prePanel` (the handler always returns a nil error). -/
def Gui.prePanel (gui : Gui) : Except Panic Gui :=
  match prePanelIndex gui with
  | Except.error e => Except.error e
  | Except.ok nextIndex =>
    match sliceGet gui.PanelNames nextIndex with
    | Except.error e => Except.error e
    | Except.ok name =>
      match gui.SwitchPanel name with
      | Except.error e => Except.error e
      | Except.ok (gui1, _) => Except.ok { gui1 with active := nextIndex }

/-- Source `quit`. -/
def Gui.quit (_gui : Gui) : Option gocui.Error := some gocui.Error.ErrQuit

/-- Modelled from the spec: the constructors `NewImageList`, `NewContainerList`,
`NewVolumeList`, `NewDetail` and `NewNavigate` are not under src/.  Each returns a
panel of its type carrying the name and rectangle it is given (spec §3: "Each panel
owns its geometry"). -/
def NewPanel (t : PanelType) (name : String) (x y w h : Int) : Panel :=
  { type := t, name := name, pos := { x := x, y := y, w := w, h := h } }

/-- Modelled from the spec: the `SetView` methods of the panel types are not under
src/.  Spec §6 "create or get view at rectangle" with the panel's name as view
identifier (§3); §4.5: the router binds quit, cycle-next and cycle-previous per
cyclable panel.  A library error other than `ErrUnknownView` is returned. -/
def Panel.SetView (p : Panel) (g : gocui.Gui) : Except Panic (gocui.Gui × Option gocui.Error) :=
  match g.SetView p.name p.pos.x p.pos.y p.pos.w p.pos.h with
  | (g1, _, some err) =>
    if err ≠ gocui.Error.ErrUnknownView then Except.ok (g1, some err)
    else if storeTarget p.name then
      match Gui.SetKeyBindingToPanel g1 p.name with
      | Except.error e => Except.error e
      | Except.ok g2 => Except.ok (g2, none)
    else Except.ok (g1, none)
  | (g1, _, none) => Except.ok (g1, none)

/-- Modelled from the spec: the `Refresh` methods of the panel types are not under
src/.  Glossary: "Refresh: re-fetching and re-rendering a panel's content from its
backend collaborator"; the panel's view, when it exists, gets the fetched text. -/
def Panel.Refresh (p : Panel) (gui : Gui) : Gui :=
  let text := gui.Docker.fetch p.name
  let g1 := gui.toGui.modifyView p.name (fun v => v.Clear.Write text)
  { gui with toGui := g1 }

/-- The loop `for _, panel := range g.Panels { panel.SetView(g.Gui) }` of `init`; the
returned error is dropped.  Go leaves the iteration order of a map unspecified; the
order of the association list is used. -/
def setViews : List (String × Panel) → gocui.Gui → Except Panic gocui.Gui
  | [], g => Except.ok g
  | e :: m, g =>
    match e.2.SetView g with
    | Except.error p => Except.error p
    | Except.ok (g1, _) => setViews m g1

/-- Source `init`. -/
def Gui.init (g : Gui) : Except Panic Gui :=
  let (maxX, maxY) := g.Size
  let g := g.StorePanels (NewPanel PanelType.ImageList ImageListPanel 0 0
    (maxX.tdiv 2 - 1) (maxY.tdiv 3 - 1))
  let g := g.StorePanels (NewPanel PanelType.ContainerList ContainerListPanel 0
    (maxY.tdiv 3) (maxX.tdiv 2 - 1) ((maxY.tdiv 3) * 2 - 1))
  let g := g.StorePanels (NewPanel PanelType.VolumeList VolumeListPanel 0
    ((maxY.tdiv 3) * 2) (maxX.tdiv 2 - 1) (maxY - 3))
  let g := g.StorePanels (NewPanel PanelType.Detail DetailPanel (maxX.tdiv 2 + 1) 0
    (maxX - 1) (maxY - 3))
  let g := g.StorePanels (NewPanel PanelType.Navigate NavigatePanel 0 (maxY - 3)
    (maxX - 1) maxY)
  match setViews g.Panels g.toGui with
  | Except.error p => Except.error p
  | Except.ok g1 =>
    match Gui.SwitchPanel { g with toGui := g1 } ImageListPanel with
    | Except.error p => Except.error p
    | Except.ok (g2, _) =>
      match Gui.SetGlobalKeyBinding g2.toGui with
      | Except.error p => Except.error p
      | Except.ok g3 => Except.ok { g2 with toGui := g3 }

/-- Source `New`: `gocui.NewGui` yields a library state without views or bindings whose
size is the terminal's; `d` is the backend that `docker.NewDocker()` returns. -/
def New (maxX maxY : Int) (d : Docker) : Except Panic Gui :=
  let g : gocui.Gui :=
    { views := [], currentView := none, keybindings := [], maxX := maxX, maxY := maxY }
  let gui : Gui :=
    { toGui := g, Docker := d, Panels := [], PanelNames := [],
      NextPanel := ImageListPanel, active := 0 }
  gui.init

/-- Source `StateMessage`: the status overlay; it gets no key binding. -/
def Gui.StateMessage (gui : Gui) (message : String) : Except Panic (Gui × Option gocui.View) :=
  let (maxX, maxY) := gui.Size
  let x := maxX.tdiv 3
  let y := maxY.tdiv 3
  match gui.toGui.SetView StateMessagePanel x y (maxX - x) (y + 2) with
  | (g1, v, some err) =>
    if err ≠ gocui.Error.ErrUnknownView then Except.error (Panic.err err)
    else
      match v with
      | none => Except.error Panic.nilPointer
      | some v =>
        let g2 := g1.modifyView v.name
          (fun w => ({ w with Wrap := true, Title := w.name }).Write message)
        match Gui.SwitchPanel { gui with toGui := g2 } v.name with
        | Except.error p => Except.error p
        | Except.ok (gui1, _) => Except.ok (gui1, gui1.toGui.View v.name)
  | (g1, v, none) => Except.ok ({ gui with toGui := g1 }, v)

/-- Source `CloseStateMessage`. -/
def Gui.CloseStateMessage (gui : Gui) : Except Panic Gui :=
  match gui.toGui.DeleteView StateMessagePanel with
  | (_, some err) => Except.error (Panic.err err)
  | (g1, none) => Except.ok { gui with toGui := g1 }

/-- Source `IsSetView`. -/
def Gui.IsSetView (g : Gui) (name : String) : Bool :=
  (g.toGui.View name).isSome

/-- Source `RefreshAllPanel`.  The map is iterated in the order of the association list. -/
def Gui.RefreshAllPanel (gui : Gui) : Except Panic Gui :=
  let gui1 := gui.Panels.foldl (fun g e => e.2.Refresh g) gui
  match gui1.SwitchPanel gui1.NextPanel with
  | Except.error p => Except.error p
  | Except.ok (gui2, _) => Except.ok gui2

/-- The function that `ErrMessage` hands to `gui.Update`; the library runs it on its
main loop. -/
def Gui.ErrMessage (gui : Gui) (message : String) (nextPanel : String) : Except Panic Gui :=
  let gui := { gui with NextPanel := nextPanel }
  let (maxX, maxY) := gui.Size
  let x := maxX.tdiv 5
  let y := maxY.tdiv 3
  let bind := fun (gui : Gui) (name : String) =>
    match gui.toGui.SetKeybinding name gocui.Key.KeyEnter gocui.Handler.CloseMessage with
    | (_, some e) => (Except.error (Panic.err e) : Except Panic Gui)
    | (g, none) => Except.ok { gui with toGui := g }
  match gui.toGui.SetView ErrMessagePanel x y (maxX - x) (y + 4) with
  | (g1, v, some err) =>
    if err ≠ gocui.Error.ErrUnknownView then Except.error (Panic.err err)
    else
      match v with
      | none => Except.error Panic.nilPointer
      | some v =>
        let g2 := g1.modifyView v.name
          (fun w => ({ w with Wrap := true, Title := w.name }).Write message)
        match Gui.SwitchPanel { gui with toGui := g2 } v.name with
        | Except.error p => Except.error p
        | Except.ok (gui1, _) => bind gui1 v.name
  | (g1, v, none) =>
    match v with
    | none => Except.error Panic.nilPointer
    | some v => bind { gui with toGui := g1 } v.name

/-- Source `CloseMessage`, the handler bound to Enter on the error overlay; `v` is the view
the key was pressed in. -/
def Gui.CloseMessage (gui : Gui) (v : gocui.View) : Except Panic Gui :=
  match gui.toGui.DeleteView v.name with
  | (_, some err) => Except.error (Panic.err err)
  | (g1, none) =>
    let g2 := g1.DeleteKeybindings v.name
    Gui.RefreshAllPanel { gui with toGui := g2 }

/-- Source `ConfirmMessage`. -/
def Gui.ConfirmMessage (gui : Gui) (message : String) (f : gocui.Handler) : Except Panic Gui :=
  let (maxX, maxY) := gui.Size
  let x := maxX.tdiv 5
  let y := maxY.tdiv 3
  let bind := fun (gui : Gui) (name : String) =>
    match gui.toGui.SetKeybinding name (gocui.Key.rune 'y') f with
    | (_, some e) => (Except.error (Panic.err e) : Except Panic Gui)
    | (g, none) =>
    match g.SetKeybinding name gocui.Key.KeyEnter f with
    | (_, some e) => Except.error (Panic.err e)
    | (g, none) =>
    match g.SetKeybinding name (gocui.Key.rune 'n') gocui.Handler.CloseConfirmMessage with
    | (_, some e) => Except.error (Panic.err e)
    | (g, none) => Except.ok { gui with toGui := g }
  match gui.toGui.SetView ConfirmMessagePanel x y (maxX - x) (y + 2) with
  | (g1, v, some err) =>
    if err ≠ gocui.Error.ErrUnknownView then Except.error (Panic.err err)
    else
      match v with
      | none => Except.error Panic.nilPointer
      | some v =>
        let g2 := g1.modifyView v.name
          (fun w => ({ w with Wrap := true, Title := w.name }).Write message)
        match Gui.SwitchPanel { gui with toGui := g2 } v.name with
        | Except.error p => Except.error p
        | Except.ok (gui1, _) => bind gui1 v.name
  | (g1, v, none) =>
    match v with
    | none => Except.error Panic.nilPointer
    | some v => bind { gui with toGui := g1 } v.name

/-- Source `CloseConfirmMessage`, the handler bound to `n` on the confirm overlay. -/
def Gui.CloseConfirmMessage (gui : Gui) : Except Panic Gui :=
  match gui.toGui.DeleteView ConfirmMessagePanel with
  | (_, some err) => Except.error (Panic.err err)
  | (g1, none) =>
    let g2 := g1.DeleteKeybindings ConfirmMessagePanel
    match Gui.SwitchPanel { gui with toGui := g2 } gui.NextPanel with
    | Except.error p => Except.error p
    | Except.ok (gui1, _) => Except.ok gui1

/-- Source `ReadLine`: the line at row `y` of the view (the cursor row when `y` is nil),
trimmed of spaces; the empty string when the line cannot be read. -/
def ReadLine (v : gocui.View) (y : Option Int) : String :=
  let y := match y with
    | none => v.Cursor.2
    | some y => y
  match v.Line y with
  | Except.error _ => ""
  | Except.ok str => trimSpaces str

/-- Source `CursorDown`: the view after the call and the returned error. -/
def CursorDown (_g : gocui.Gui) (v : Option gocui.View) :
    Option gocui.View × Option gocui.Error :=
  match v with
  | none => (none, none)
  | some v =>
    let (cx, cy) := v.Cursor
    let nexty := cy + 1
    let line := ReadLine v (some nexty)
    if line = "" then (some v, none)
    else
      match v.SetCursor cx (cy + 1) with
      | (v1, none) => (some v1, none)
      | (v1, some _) =>
        let (ox, oy) := v1.Origin
        match v1.SetOrigin ox (oy + 1) with
        | (v2, some err) => (some v2, some err)
        | (v2, none) => (some v2, none)

/-- Source `CursorUp`. -/
def CursorUp (_g : gocui.Gui) (v : Option gocui.View) :
    Option gocui.View × Option gocui.Error :=
  match v with
  | none => (none, none)
  | some v =>
    let (ox, oy) := v.Origin
    let (cx, cy) := v.Cursor
    if v.name ≠ DetailPanel ∧ cy - 1 = 0 ∧ oy - 1 < 1 then (some v, none)
    else
      match v.SetCursor cx (cy - 1) with
      | (v1, none) => (some v1, none)
      | (v1, some _) =>
        if oy > 0 then
          match v1.SetOrigin ox (oy - 1) with
          | (v2, some err) => (some v2, some err)
          | (v2, none) => (some v2, none)
        else (some v1, none)

/-- Source `PageDown`. -/
def PageDown (g : gocui.Gui) (v : Option gocui.View) :
    Option gocui.View × Option gocui.Error :=
  let (_, maxY) := g.Size
  match v with
  | none => (none, none)
  | some v =>
    let (cx, cy) := v.Cursor
    match v.SetCursor cx (cy + maxY.tdiv 2) with
    | (v1, none) => (some v1, none)
    | (v1, some _) =>
      let (ox, oy) := v1.Origin
      match v1.SetOrigin ox (oy + maxY.tdiv 2) with
      | (v2, some err) => (some v2, some err)
      | (v2, none) => (some v2, none)

/-- Source `PageUp`. -/
def PageUp (g : gocui.Gui) (v : Option gocui.View) :
    Option gocui.View × Option gocui.Error :=
  let (_, maxY) := g.Size
  match v with
  | none => (none, none)
  | some v =>
    let (ox, oy) := v.Origin
    let (cx, cy) := v.Cursor
    match v.SetCursor cx (cy - maxY.tdiv 2) with
    | (v1, none) => (some v1, none)
    | (v1, some _) =>
      if oy > 0 then
        match v1.SetOrigin ox (oy - maxY.tdiv 2) with
        | (v2, some err) => (some v2, some err)
        | (v2, none) => (some v2, none)
      else (some v1, none)

/-! ## Predicates and example states used by the theorems -/

/-- The state is ready for a focus switch: view names are unique (the library never
creates two views of one name), the registry holds the navigation bar under
`NavigatePanel`, and the bar has its view. -/
structure Gui.Ready (gui : Gui) : Prop where
  nodup : gui.viewNames.Nodup
  navi : ∃ p, mapGet gui.Panels NavigatePanel = some p ∧ p.type = PanelType.Navigate ∧
    p.name = NavigatePanel
  naviView : NavigatePanel ∈ gui.viewNames

/-- The navigation bar can be updated: the registry holds a `Navigate` panel under
`NavigatePanel` and the view of that panel exists.  This is what
`SetNaviWithPanelName` needs in order not to panic. -/
def Gui.NaviUsable (gui : Gui) : Prop :=
  ∃ p, mapGet gui.Panels NavigatePanel = some p ∧ p.type = PanelType.Navigate ∧
    p.Name ∈ gui.viewNames

/-- What a focus switch leaves alone. -/
structure Gui.SameCtl (g1 g : Gui) : Prop where
  Panels : g1.Panels = g.Panels
  PanelNames : g1.PanelNames = g.PanelNames
  NextPanel : g1.NextPanel = g.NextPanel
  active : g1.active = g.active
  keybindings : g1.keybindings = g.keybindings
  maxX : g1.maxX = g.maxX
  maxY : g1.maxY = g.maxY
  Docker : g1.Docker = g.Docker

/-- Run a handler `k` times, stopping at the first panic. -/
def times (f : Gui → Except Panic Gui) : Nat → Gui → Except Panic Gui
  | 0, g => Except.ok g
  | k + 1, g =>
    match f g with
    | Except.error e => Except.error e
    | Except.ok g1 => times f k g1

/-- The view `name` has the input focus and is drawn on top. -/
def Gui.Focused (g : Gui) (name : String) : Prop :=
  g.currentView = some name ∧ g.viewNames.getLast? = some name

/-- Every name of the cyclable sequence has its view. -/
def Gui.CycleViews (g : Gui) : Prop :=
  ∀ n ∈ g.PanelNames, n ∈ g.viewNames

/-- A backend that returns no text. -/
def silentDocker : Docker := { fetch := fun _ => "" }

/-- The state in an `Except` result; the empty state when it is a panic. -/
def stateOf (r : Except Panic Gui) : Gui :=
  match r with
  | Except.ok g => g
  | Except.error _ =>
    { views := [], currentView := none, keybindings := [], maxX := 0, maxY := 0,
      Docker := silentDocker, Panels := [], PanelNames := [], NextPanel := "", active := 0 }

/-- The state that `New` builds on an 80 by 24 terminal. -/
def started : Gui := stateOf (New 80 24 silentDocker)

/-- One step of the controller: registering a panel, cycle-next, cycle-previous. -/
inductive Step : Gui → Gui → Prop where
  | store (g : Gui) (p : Panel) : Step g (g.StorePanels p)
  | next (g g1 : Gui) : g.nextPanel = Except.ok g1 → Step g g1
  | pre (g g1 : Gui) : g.prePanel = Except.ok g1 → Step g g1

/-- The states reachable from the one that `New` builds. -/
inductive Reachable : Gui → Prop where
  | init (maxX maxY : Int) (d : Docker) (g : Gui) :
      New maxX maxY d = Except.ok g → Reachable g
  | step (g g1 : Gui) : Reachable g → Step g g1 → Reachable g1

/-- The active index is a valid index into the cyclable sequence. -/
def Gui.ActiveValid (g : Gui) : Prop :=
  g.PanelNames ≠ [] ∧ 0 ≤ g.active ∧ g.active < (g.PanelNames.length : Int)

/-- The three bindings `ConfirmMessage` adds for the accept action `f`. -/
def confirmBindings (f : gocui.Handler) : List gocui.keybinding :=
  [⟨ConfirmMessagePanel, gocui.Key.rune 'y', f⟩,
   ⟨ConfirmMessagePanel, gocui.Key.KeyEnter, f⟩,
   ⟨ConfirmMessagePanel, gocui.Key.rune 'n', gocui.Handler.CloseConfirmMessage⟩]

/-- Well-formed viewport: the origin is not negative (what `SetOrigin` checks), the
cursor row is not negative (what `SetCursor` checks) and every rendered row shows a
line of the buffer. -/
def ViewWF (v : gocui.View) : Prop :=
  0 ≤ v.ox ∧ 0 ≤ v.oy ∧ 0 ≤ v.cy ∧
    ∀ vl ∈ v.viewLines, 0 ≤ vl.linesY ∧ vl.linesY < (v.lines.length : Int)

/-- The state that `New` builds on an 80 by 7 terminal: the rectangle of the volume
list is empty there, so that panel gets no view. -/
def small : Gui := stateOf (New 80 7 silentDocker)

/-- The state after one `prePanel` on the 80 by 7 terminal: the focus is on the
detail panel, the active index is 3. -/
def smallAtDetail : Gui := stateOf small.prePanel

/-- The state after registering an input panel, one cycle-next and one cycle-previous
from the state `New` builds. -/
def toured : Gui :=
  stateOf (Gui.prePanel (stateOf (Gui.nextPanel
    (started.StorePanels (NewPanel PanelType.Input PullImagePanel 0 0 10 10)))))

/-- The handlers bound to `key` on the view `view`, in binding order. -/
def handlersFor (g : gocui.Gui) (view : String) (key : gocui.Key) : List gocui.Handler :=
  (g.keybindings.filter (fun kb => kb.viewname = view ∧ kb.key = key)).map
    (fun kb => kb.handler)

/-- Running a bound handler on the view `v`; `cb` gives the effect of the handlers
supplied by callers.  (`quit` only returns `ErrQuit`.) -/
def Gui.runHandler (cb : Nat → Gui → Except Panic Gui) (h : gocui.Handler) (gui : Gui)
    (v : gocui.View) : Except Panic Gui :=
  match h with
  | gocui.Handler.quit => Except.ok gui
  | gocui.Handler.prePanel => gui.prePanel
  | gocui.Handler.nextPanel => gui.nextPanel
  | gocui.Handler.CloseMessage => gui.CloseMessage v
  | gocui.Handler.CloseConfirmMessage => gui.CloseConfirmMessage
  | gocui.Handler.callback id => cb id gui

/-- The state `New` builds, with the error overlay open. -/
def errorShown : Gui := stateOf (started.ErrMessage "pull failed" ImageListPanel)

/-- The cursor lies inside the visible window of the view (what `SetCursor` checks). -/
def CursorInWindow (v : gocui.View) : Prop :=
  0 ≤ v.cx ∧ v.cx < v.Size.1 ∧ 0 ≤ v.cy ∧ v.cy < v.Size.2

/-- The row `cursor.row + origin.row` addresses a line of the rendered content:
`View.Line` at the cursor row succeeds. -/
def OnContent (v : gocui.View) : Prop :=
  ∃ s, v.Line v.cy = Except.ok s

/-- A list view four rows high with content "a", "b", "" and the cursor on row 0. -/
def listView : gocui.View :=
  { gocui.newView "image list" 0 0 20 5 with lines := ["a", "b", ""] }

/-- The detail view as `init` places it on an 80 by 24 terminal (20 visible rows),
showing the single line "a", cursor and origin at 0. -/
def shortView : gocui.View :=
  { gocui.newView "detail" 41 0 79 21 with lines := ["a"] }

end panel

/-! ## Theorems about the collaborator model -/

namespace gocui

theorem find_of_mem (n : String) (l : List View) (h : n ∈ l.map (fun v => v.name)) :
    ∃ v, l.find? (fun v => v.name = n) = some v ∧ v.name = n := by
  induction l with
  | nil => simp at h
  | cons a l ih =>
    by_cases ha : a.name = n
    · exact ⟨a, by simp [List.find?, ha], ha⟩
    · have h1 : n ∈ l.map (fun v => v.name) := by
        simp only [List.map_cons, List.mem_cons] at h
        rcases h with h | h
        · exact absurd h.symm ha
        · exact h
      obtain ⟨v, hv, hn⟩ := ih h1
      exact ⟨v, by simp [List.find?, ha, hv], hn⟩

theorem find_none_of_not_mem (n : String) (l : List View)
    (h : n ∉ l.map (fun v => v.name)) : l.find? (fun v => v.name = n) = none := by
  induction l with
  | nil => rfl
  | cons a l ih =>
    simp only [List.map_cons, List.mem_cons, not_or] at h
    have ha : ¬ a.name = n := fun e => h.1 e.symm
    simp [List.find?, ha, ih h.2]

theorem map_name_modifyFirst (n : String) (f : View → View)
    (hf : ∀ v, v.name = n → (f v).name = n) (l : List View) :
    (modifyFirst n f l).map (fun v => v.name) = l.map (fun v => v.name) := by
  induction l with
  | nil => rfl
  | cons a l ih =>
    by_cases ha : a.name = n
    · simp [modifyFirst, ha, hf a ha]
    · simp [modifyFirst, ha, ih]

theorem map_name_removeFirst (n : String) (l : List View) :
    (removeFirst n l).map (fun v => v.name) = (l.map (fun v => v.name)).erase n := by
  induction l with
  | nil => rfl
  | cons a l ih =>
    by_cases ha : a.name = n
    · simp [removeFirst, ha]
    · simp [removeFirst, ha, ih, List.erase_cons_tail]

end gocui

/-! ## Theorems about package `panel` -/

namespace panel

theorem SwitchPanel_returns (gui : Gui) (next : String) (hr : gui.NaviUsable)
    (hn : next ∈ gui.viewNames) :
    ∃ g1 v, gui.SwitchPanel next = Except.ok (g1, v) ∧ g1.currentView = some next ∧
      g1.viewNames.getLast? = some next ∧ g1.viewNames.Perm gui.viewNames ∧
      g1.SameCtl gui := by
  obtain ⟨v, hv, hvn⟩ := gocui.find_of_mem next gui.views hn
  obtain ⟨p, hp, hpt, hpv⟩ := hr
  have hnames1 : (gocui.removeFirst next gui.views ++ [v]).map (fun v => v.name)
      = gui.viewNames.erase next ++ [next] := by
    simp [gocui.map_name_removeFirst, gocui.Gui.viewNames, hvn]
  have hperm : (gui.viewNames.erase next ++ [next]).Perm gui.viewNames := by
    have h1 := List.perm_cons_erase hn
    exact (List.perm_append_comm.trans (by simpa using h1.symm))
  have hnavi1 : p.Name ∈ (gocui.removeFirst next gui.views ++ [v]).map
      (fun v => v.name) := by
    rw [hnames1]; exact hperm.mem_iff.mpr hpv
  obtain ⟨w, hw, hwn⟩ := gocui.find_of_mem p.Name _ hnavi1
  have heq : gui.SwitchPanel next = Except.ok
      ({ gui with
          views := gocui.modifyFirst p.Name (fun _ => w.Clear.Write next)
            (gocui.removeFirst next gui.views ++ [v]),
          currentView := some next }, some v) := by
    simp only [Gui.SwitchPanel, SetCurrentPanel, gocui.Gui.SetCurrentView, gocui.Gui.View,
      hv, gocui.Gui.SetViewOnTop, Gui.SetNaviWithPanelName, hp, hpt, Navigate.SetNavi,
      hw, gocui.Gui.modifyView]
    simp
  have hnames2 : (gocui.modifyFirst p.Name (fun _ => w.Clear.Write next)
      (gocui.removeFirst next gui.views ++ [v])).map (fun v => v.name)
      = gui.viewNames.erase next ++ [next] := by
    rw [gocui.map_name_modifyFirst p.Name (fun _ => w.Clear.Write next)
      (fun _ _ => hwn), hnames1]
  refine ⟨_, _, heq, rfl, ?_, ?_, ⟨rfl, rfl, rfl, rfl, rfl, rfl, rfl, rfl⟩⟩
  · show (List.map _ _).getLast? = _
    rw [hnames2]; simp
  · show (List.map _ _).Perm _
    rw [hnames2]; exact hperm

theorem Ready.naviUsable (gui : Gui) (hr : gui.Ready) : gui.NaviUsable := by
  obtain ⟨p, hp, hpt, hpn⟩ := hr.navi
  exact ⟨p, hp, hpt, by rw [Panel.Name, hpn]; exact hr.naviView⟩

theorem SwitchPanel_ok (gui : Gui) (next : String) (hr : gui.Ready)
    (hn : next ∈ gui.viewNames) :
    ∃ g1 v, gui.SwitchPanel next = Except.ok (g1, v) ∧ g1.currentView = some next ∧
      g1.viewNames.getLast? = some next ∧ g1.viewNames.Perm gui.viewNames ∧
      g1.SameCtl gui :=
  SwitchPanel_returns gui next (Ready.naviUsable gui hr) hn

theorem sliceGet_ok (s : List String) (i : Int) (h0 : 0 ≤ i) (hlt : i < (s.length : Int)) :
    ∃ name, sliceGet s i = Except.ok name ∧ name ∈ s ∧ s[i.toNat]? = some name := by
  have hi : i.toNat < s.length := by omega
  refine ⟨s[i.toNat], ?_, List.getElem_mem _, ?_⟩
  · have : ¬ (i < 0 ∨ i ≥ (s.length : Int)) := by omega
    simp [sliceGet, this, List.getD_eq_getElem?_getD, List.getElem?_eq_getElem hi]
  · exact List.getElem?_eq_getElem hi

theorem Ready_of_perm (g1 g : Gui) (hr : g.Ready) (hp : g1.viewNames.Perm g.viewNames)
    (hP : g1.Panels = g.Panels) : g1.Ready :=
  ⟨hp.nodup_iff.mpr hr.nodup, by rw [hP]; exact hr.navi, hp.mem_iff.mpr hr.naviView⟩

theorem started_ok : New 80 24 silentDocker = Except.ok started := by rfl

theorem started_Ready : started.Ready :=
  ⟨by decide, ⟨NewPanel PanelType.Navigate NavigatePanel 0 21 79 24, by rfl, by rfl, by rfl⟩,
    by decide⟩

theorem SetCurrentPanel_frame (g g1 : gocui.Gui) (name : String) (v : Option gocui.View)
    (h : SetCurrentPanel g name = (g1, v, none)) :
    g1.keybindings = g.keybindings ∧ g1.maxX = g.maxX ∧ g1.maxY = g.maxY := by
  unfold SetCurrentPanel gocui.Gui.SetCurrentView at h
  cases hv : g.View name with
  | none => simp [hv] at h
  | some w =>
    simp only [hv, gocui.Gui.SetViewOnTop, gocui.Gui.View] at h
    have hv1 : List.find? (fun v => decide (v.name = name)) g.views = some w := hv
    simp only [hv1] at h
    injection h with h1 _
    subst h1
    exact ⟨rfl, rfl, rfl⟩

theorem SwitchPanel_frame (gui g1 : Gui) (next : String) (v : Option gocui.View)
    (h : gui.SwitchPanel next = Except.ok (g1, v)) : g1.SameCtl gui := by
  unfold Gui.SwitchPanel at h
  split at h
  · cases h
  · rename_i g0 v0 heq
    obtain ⟨hk, hx, hy⟩ := SetCurrentPanel_frame _ _ _ _ heq
    unfold Gui.SetNaviWithPanelName at h
    split at h
    · cases h
    · rename_i gui1 w hnavi
      injection h with h
      injection h with h1 h2
      subst h1
      split at hnavi
      · cases hnavi
      · split at hnavi
        · cases hnavi
        · split at hnavi
          · cases hnavi
          · rename_i g2 w2 hset
            injection hnavi with h3
            injection h3 with h4 h5
            subst h4
            unfold Navigate.SetNavi at hset
            split at hset
            · cases hset
            · injection hset with h6
              injection h6 with h7 h8
              subst h7
              exact ⟨rfl, rfl, rfl, rfl, hk, hx, hy, rfl⟩

theorem nextPanel_result (gui g1 : Gui) (h : gui.nextPanel = Except.ok g1) :
    g1.PanelNames = gui.PanelNames ∧
      goMod (gui.active + 1) (gui.PanelNames.length : Int) = Except.ok g1.active := by
  unfold Gui.nextPanel at h
  split at h
  · cases h
  · rename_i k hk
    split at h
    · cases h
    · split at h
      · cases h
      · rename_i g2 v hsw
        injection h with h
        subst h
        exact ⟨(SwitchPanel_frame _ _ _ _ hsw).PanelNames, hk⟩

theorem prePanel_result (gui g1 : Gui) (h : gui.prePanel = Except.ok g1) :
    g1.PanelNames = gui.PanelNames ∧ prePanelIndex gui = Except.ok g1.active := by
  unfold Gui.prePanel at h
  split at h
  · cases h
  · rename_i k hk
    split at h
    · cases h
    · split at h
      · cases h
      · rename_i g2 v hsw
        injection h with h
        subst h
        exact ⟨(SwitchPanel_frame _ _ _ _ hsw).PanelNames, hk⟩

theorem StorePanels_PanelNames (g : Gui) (p : Panel) :
    (g.StorePanels p).PanelNames =
      if storeTarget p.Name = true then g.PanelNames ++ [p.Name] else g.PanelNames := by
  unfold Gui.StorePanels Gui.AddPanelNames
  by_cases h : storeTarget p.Name = true <;> simp [h]

theorem StorePanels_active (g : Gui) (p : Panel) : (g.StorePanels p).active = g.active := by
  unfold Gui.StorePanels Gui.AddPanelNames
  by_cases h : storeTarget p.Name = true <;> simp [h]

theorem New_result (maxX maxY : Int) (d : Docker) (g : Gui)
    (h : New maxX maxY d = Except.ok g) :
    g.PanelNames = [ImageListPanel, ContainerListPanel, VolumeListPanel, DetailPanel] ∧
      g.active = 0 := by
  unfold New Gui.init at h
  simp only [gocui.Gui.Size] at h
  split at h
  · cases h
  · split at h
    · cases h
    · rename_i g2 v hsw
      split at h
      · cases h
      · injection h with h
        subst h
        have hc := SwitchPanel_frame _ _ _ _ hsw
        refine ⟨?_, ?_⟩
        · show g2.PanelNames = _
          rw [hc.PanelNames]
          rfl
        · show g2.active = _
          rw [hc.active]
          rfl

theorem ActiveValid_step (g g1 : Gui) (hs : Step g g1) (hv : g.ActiveValid) :
    g1.ActiveValid := by
  obtain ⟨hne, h0, hlt⟩ := hv
  have hN : (0 : Int) < (g.PanelNames.length : Int) := by omega
  cases hs with
  | store p =>
    unfold Gui.ActiveValid
    rw [StorePanels_PanelNames, StorePanels_active]
    by_cases h : storeTarget p.Name = true
    · simp only [h, if_true, List.length_append, List.length_singleton]
      refine ⟨by simp, h0, ?_⟩
      push_cast
      omega
    · simp only [h]
      exact ⟨hne, h0, hlt⟩
  | next _ h =>
    obtain ⟨hpn, hk⟩ := nextPanel_result g g1 h
    simp only [goMod, ne_of_gt hN, if_false] at hk
    injection hk with hk
    refine ⟨by rw [hpn]; exact hne, ?_, ?_⟩
    · rw [← hk]; exact Int.tmod_nonneg _ (by omega)
    · rw [← hk, hpn]; exact Int.tmod_lt_of_pos _ hN
  | pre _ h =>
    obtain ⟨hpn, hk⟩ := prePanel_result g g1 h
    unfold prePanelIndex at hk
    by_cases hz : g.active - 1 < 0
    · simp only [hz, if_true] at hk
      injection hk with hk
      refine ⟨by rw [hpn]; exact hne, ?_, ?_⟩ <;> rw [← hk] <;> try rw [hpn]
      all_goals omega
    · simp only [hz, if_false, goMod, ne_of_gt hN] at hk
      injection hk with hk
      refine ⟨by rw [hpn]; exact hne, ?_, ?_⟩
      · rw [← hk]; exact Int.tmod_nonneg _ (by omega)
      · rw [← hk, hpn]; exact Int.tmod_lt_of_pos _ hN

theorem Reachable_ActiveValid (g : Gui) (h : Reachable g) : g.ActiveValid := by
  induction h with
  | init maxX maxY d g hg =>
    obtain ⟨hpn, ha⟩ := New_result maxX maxY d g hg
    refine ⟨by rw [hpn]; simp, by rw [ha], ?_⟩
    rw [ha, hpn]; decide
  | step g g1 _ hs ih => exact ActiveValid_step g g1 hs ih

theorem Gui.SameCtl.trans {g2 g1 g : Gui} (h2 : g2.SameCtl g1) (h1 : g1.SameCtl g) :
    g2.SameCtl g :=
  ⟨h2.Panels.trans h1.Panels, h2.PanelNames.trans h1.PanelNames,
    h2.NextPanel.trans h1.NextPanel, h2.active.trans h1.active,
    h2.keybindings.trans h1.keybindings, h2.maxX.trans h1.maxX, h2.maxY.trans h1.maxY,
    h2.Docker.trans h1.Docker⟩

theorem Refresh_frame (p : Panel) (g : Gui) :
    (p.Refresh g).viewNames = g.viewNames ∧ (p.Refresh g).currentView = g.currentView ∧
      (p.Refresh g).SameCtl g := by
  refine ⟨?_, rfl, ⟨rfl, rfl, rfl, rfl, rfl, rfl, rfl, rfl⟩⟩
  exact gocui.map_name_modifyFirst p.name (fun v => v.Clear.Write (g.Docker.fetch p.name))
    (fun _ hv => hv) g.views

theorem refreshAll_frame (ps : List (String × Panel)) : ∀ (g : Gui),
    (ps.foldl (fun g e => e.2.Refresh g) g).viewNames = g.viewNames ∧
      (ps.foldl (fun g e => e.2.Refresh g) g).currentView = g.currentView ∧
      (ps.foldl (fun g e => e.2.Refresh g) g).SameCtl g := by
  induction ps with
  | nil => intro g; exact ⟨rfl, rfl, ⟨rfl, rfl, rfl, rfl, rfl, rfl, rfl, rfl⟩⟩
  | cons e ps ih =>
    intro g
    obtain ⟨h1, h2, h3⟩ := ih (e.2.Refresh g)
    obtain ⟨k1, k2, k3⟩ := Refresh_frame e.2 g
    exact ⟨h1.trans k1, h2.trans k2, h3.trans k3⟩

theorem RefreshAllPanel_ok (gui : Gui) (hr : gui.Ready)
    (hn : gui.NextPanel ∈ gui.viewNames) :
    ∃ g1, gui.RefreshAllPanel = Except.ok g1 ∧ g1.Focused gui.NextPanel ∧
      g1.viewNames.Perm gui.viewNames ∧ g1.SameCtl gui := by
  obtain ⟨h1, _, h3⟩ := refreshAll_frame gui.Panels gui
  have hr1 : (gui.Panels.foldl (fun g e => e.2.Refresh g) gui).Ready :=
    Ready_of_perm _ gui hr (by rw [h1]) h3.Panels
  have hn1 : (gui.Panels.foldl (fun g e => e.2.Refresh g) gui).NextPanel ∈
      (gui.Panels.foldl (fun g e => e.2.Refresh g) gui).viewNames := by
    rw [h1, h3.NextPanel]; exact hn
  obtain ⟨g1, v, hsw, hcur, htop, hperm, hctl⟩ := SwitchPanel_ok _ _ hr1 hn1
  refine ⟨g1, ?_, ?_, ?_, hctl.trans h3⟩
  · simp only [Gui.RefreshAllPanel, hsw]
  · rw [← h3.NextPanel]; exact ⟨hcur, htop⟩
  · rw [← h1]; exact hperm

/-- Closing an overlay named `n`: delete the view and its bindings. -/
theorem delete_overlay (gui : Gui) (n : String) (hr : gui.Ready) (hv : n ∈ gui.viewNames)
    (hnav : n ≠ NavigatePanel) :
    ∃ g1, gui.toGui.DeleteView n = (g1, none) ∧
      ({ gui with toGui := g1.DeleteKeybindings n } : Gui).Ready ∧
      ({ gui with toGui := g1.DeleteKeybindings n } : Gui).viewNames
        = gui.viewNames.erase n ∧
      (g1.DeleteKeybindings n).keybindings
        = gui.keybindings.filter (fun kb => kb.viewname ≠ n) ∧
      (g1.DeleteKeybindings n).currentView = gui.currentView := by
  obtain ⟨v, hfind, _⟩ := gocui.find_of_mem n gui.views hv
  have hnames : (gocui.removeFirst n gui.views).map (fun v => v.name)
      = gui.viewNames.erase n := gocui.map_name_removeFirst n gui.views
  refine ⟨{ gui.toGui with views := gocui.removeFirst n gui.views }, ?_, ?_, hnames, rfl,
    rfl⟩
  · simp only [gocui.Gui.DeleteView, gocui.Gui.View, hfind]
  · refine ⟨?_, hr.navi, ?_⟩
    · show (List.map (fun (v : gocui.View) => v.name) (gocui.removeFirst n gui.views)).Nodup
      rw [hnames]; exact hr.nodup.erase n
    · show NavigatePanel ∈ List.map (fun (v : gocui.View) => v.name)
        (gocui.removeFirst n gui.views)
      rw [hnames]
      exact (List.mem_erase_of_ne (fun e => hnav e.symm)).mpr hr.naviView

theorem CloseMessage_ok (gui : Gui) (v : gocui.View) (hr : gui.Ready)
    (hv : v.name ∈ gui.viewNames) (hnav : v.name ≠ NavigatePanel)
    (hnext : gui.NextPanel ∈ gui.viewNames) (hne : gui.NextPanel ≠ v.name) :
    ∃ g2, gui.CloseMessage v = Except.ok g2 ∧ g2.Focused gui.NextPanel ∧
      v.name ∉ g2.viewNames ∧ (∀ kb ∈ g2.keybindings, kb.viewname ≠ v.name) ∧
      g2.active = gui.active ∧ g2.NextPanel = gui.NextPanel ∧
      g2.PanelNames = gui.PanelNames := by
  obtain ⟨g1, hdel, hr1, hnames, hkb, _⟩ := delete_overlay gui v.name hr hv hnav
  have hnext1 : ({ gui with toGui := g1.DeleteKeybindings v.name } : Gui).NextPanel ∈
      ({ gui with toGui := g1.DeleteKeybindings v.name } : Gui).viewNames := by
    rw [hnames]; exact (List.mem_erase_of_ne hne).mpr hnext
  obtain ⟨g2, hrun, hfoc, hperm, hctl⟩ := RefreshAllPanel_ok _ hr1 hnext1
  refine ⟨g2, ?_, hfoc, ?_, ?_, hctl.active, hctl.NextPanel, hctl.PanelNames⟩
  · simp only [Gui.CloseMessage, hdel, hrun]
  · intro hmem
    have := hperm.mem_iff.mp hmem
    rw [hnames] at this
    exact (List.Nodup.not_mem_erase hr.nodup) this
  · intro kb hkbm
    rw [hctl.keybindings] at hkbm
    have h1 : kb ∈ gui.keybindings.filter (fun kb => kb.viewname ≠ v.name) := by
      rw [← hkb]; exact hkbm
    simpa using (List.mem_filter.mp h1).2

theorem SetView_existing (gui : Gui) (name : String) (x0 y0 x1 y1 : Int) (hx : x0 < x1)
    (hy : y0 < y1) (hname : name ≠ "") (hv : name ∈ gui.viewNames) :
    ∃ g1 v, gui.toGui.SetView name x0 y0 x1 y1 = (g1, some v, none) ∧ v.name = name ∧
      g1.viewNames = gui.viewNames ∧ g1.currentView = gui.currentView ∧
      g1.keybindings = gui.keybindings ∧ g1.maxX = gui.maxX ∧ g1.maxY = gui.maxY := by
  obtain ⟨v, hfind, hvn⟩ := gocui.find_of_mem name gui.views hv
  have hd : ¬ (x0 ≥ x1 ∨ y0 ≥ y1) := by omega
  refine ⟨gui.toGui.modifyView name
      (fun _ => { v with x0 := x0, y0 := y0, x1 := x1, y1 := y1 }),
    { v with x0 := x0, y0 := y0, x1 := x1, y1 := y1 }, ?_, hvn, ?_, rfl, rfl, rfl, rfl⟩
  · simp only [gocui.Gui.SetView, hd, hname, if_false, gocui.Gui.View, hfind]
  · exact gocui.map_name_modifyFirst name
      (fun _ => { v with x0 := x0, y0 := y0, x1 := x1, y1 := y1 }) (fun _ _ => hvn) gui.views

theorem SetView_new (gui : Gui) (name : String) (x0 y0 x1 y1 : Int) (hx : x0 < x1)
    (hy : y0 < y1) (hname : name ≠ "") (hv : name ∉ gui.viewNames) :
    gui.toGui.SetView name x0 y0 x1 y1 =
      ({ gui.toGui with views := gui.views ++ [gocui.newView name x0 y0 x1 y1] },
        some (gocui.newView name x0 y0 x1 y1), some gocui.Error.ErrUnknownView) := by
  have hfind := gocui.find_none_of_not_mem name gui.views hv
  have hd : ¬ (x0 ≥ x1 ∨ y0 ≥ y1) := by omega
  simp only [gocui.Gui.SetView, hd, hname, if_false, gocui.Gui.View, hfind]

/-- Opening a fresh overlay: the view is appended, written to, and given the focus. -/
theorem open_overlay (gui : Gui) (name : String) (x0 y0 x1 y1 : Int)
    (f : gocui.View → gocui.View) (hf : ∀ v, (f v).name = v.name) (hr : gui.Ready)
    (hv : name ∉ gui.viewNames) :
    ∃ g2 w, Gui.SwitchPanel
        { gui with toGui := (gocui.Gui.modifyView
            ({ gui.toGui with views := gui.views ++ [gocui.newView name x0 y0 x1 y1] })
            name f) } name = Except.ok (g2, w) ∧
      g2.Focused name ∧ g2.viewNames.Perm (gui.viewNames ++ [name]) ∧ g2.SameCtl gui := by
  have hnames : (gocui.modifyFirst name f
      (gui.views ++ [gocui.newView name x0 y0 x1 y1])).map (fun v => v.name)
      = gui.viewNames ++ [name] := by
    rw [gocui.map_name_modifyFirst name f (fun v hv => (hf v).trans hv)]
    simp [gocui.Gui.viewNames, gocui.newView]
  have hr1 : ({ gui with toGui := (gocui.Gui.modifyView
      ({ gui.toGui with views := gui.views ++ [gocui.newView name x0 y0 x1 y1] })
      name f) } : Gui).Ready := by
    refine ⟨?_, hr.navi, ?_⟩
    · show (List.map (fun (v : gocui.View) => v.name) (gocui.modifyFirst name f
        (gui.views ++ [gocui.newView name x0 y0 x1 y1]))).Nodup
      rw [hnames]
      exact List.Nodup.append hr.nodup (List.nodup_singleton _) (by simpa using hv)
    · show NavigatePanel ∈ List.map (fun (v : gocui.View) => v.name) (gocui.modifyFirst name f
        (gui.views ++ [gocui.newView name x0 y0 x1 y1]))
      rw [hnames]
      exact List.mem_append_left _ hr.naviView
  have hmem : name ∈ ({ gui with toGui := (gocui.Gui.modifyView
      ({ gui.toGui with views := gui.views ++ [gocui.newView name x0 y0 x1 y1] })
      name f) } : Gui).viewNames := by
    show name ∈ List.map (fun (v : gocui.View) => v.name) (gocui.modifyFirst name f
        (gui.views ++ [gocui.newView name x0 y0 x1 y1]))
    rw [hnames]; simp
  obtain ⟨g2, w, hsw, hcur, htop, hperm, hctl⟩ := SwitchPanel_ok _ name hr1 hmem
  refine ⟨g2, w, hsw, ⟨hcur, htop⟩, ?_, ?_⟩
  · have : ({ gui with toGui := (gocui.Gui.modifyView
      ({ gui.toGui with views := gui.views ++ [gocui.newView name x0 y0 x1 y1] })
      name f) } : Gui).viewNames = gui.viewNames ++ [name] := hnames
    rw [← this]; exact hperm
  · exact ⟨hctl.Panels, hctl.PanelNames, hctl.NextPanel, hctl.active, hctl.keybindings,
      hctl.maxX, hctl.maxY, hctl.Docker⟩

theorem overlay_dims (maxX : Int) (h : 0 < maxX) : maxX.tdiv 5 < maxX - maxX.tdiv 5 := by
  rw [Int.tdiv_eq_ediv (by omega) (by omega)]
  omega

theorem ErrMessage_ok (gui : Gui) (message t : String) (hr : gui.Ready)
    (hX : 0 < gui.maxX) :
    ∃ g1, gui.ErrMessage message t = Except.ok g1 ∧ g1.Ready ∧
      ErrMessagePanel ∈ g1.viewNames ∧ (∀ n, n ∈ gui.viewNames → n ∈ g1.viewNames) ∧
      g1.NextPanel = t ∧ g1.active = gui.active ∧ g1.PanelNames = gui.PanelNames ∧
      g1.keybindings = gui.keybindings ++
        [⟨ErrMessagePanel, gocui.Key.KeyEnter, gocui.Handler.CloseMessage⟩] ∧
      (ErrMessagePanel ∉ gui.viewNames → g1.Focused ErrMessagePanel) := by
  have hx := overlay_dims gui.maxX hX
  have hy : gui.maxY.tdiv 3 < gui.maxY.tdiv 3 + 4 := by omega
  have hname : ErrMessagePanel ≠ "" := by decide
  by_cases hv : ErrMessagePanel ∈ gui.viewNames
  · obtain ⟨g1, v, hset, hvn, hnames, hcur, hkb, hmx, hmy⟩ :=
      SetView_existing { gui with NextPanel := t } ErrMessagePanel _ _ _ _ hx hy hname hv
    have heq : gui.ErrMessage message t = Except.ok
        ({ gui with NextPanel := t, toGui := { g1 with keybindings := g1.keybindings ++
          [⟨ErrMessagePanel, gocui.Key.KeyEnter, gocui.Handler.CloseMessage⟩] } } : Gui) := by
      simp only [Gui.ErrMessage, gocui.Gui.Size, hset, hvn]
      rfl
    have hn1 : ({ gui with NextPanel := t, toGui := { g1 with keybindings := g1.keybindings ++
        [⟨ErrMessagePanel, gocui.Key.KeyEnter, gocui.Handler.CloseMessage⟩] } } : Gui).viewNames
        = gui.viewNames := hnames
    refine ⟨_, heq, ⟨?_, hr.navi, ?_⟩, ?_, ?_, rfl, rfl, rfl, ?_, fun h => absurd hv h⟩
    · rw [hn1]; exact hr.nodup
    · rw [hn1]; exact hr.naviView
    · rw [hn1]; exact hv
    · intro n hn; rw [hn1]; exact hn
    · show g1.keybindings ++ _ = _
      rw [hkb]
  · have hset := SetView_new { gui with NextPanel := t } ErrMessagePanel _ _ _ _ hx hy hname hv
    have hr0 : ({ gui with NextPanel := t } : Gui).Ready := ⟨hr.nodup, hr.navi, hr.naviView⟩
    obtain ⟨g2, w, hsw, hfoc, hperm, hctl⟩ := open_overlay { gui with NextPanel := t }
      ErrMessagePanel (gui.maxX.tdiv 5) (gui.maxY.tdiv 3) (gui.maxX - gui.maxX.tdiv 5)
      (gui.maxY.tdiv 3 + 4)
      (fun w => ({ w with Wrap := true, Title := w.name }).Write message) (fun _ => rfl) hr0 hv
    have heq : gui.ErrMessage message t = Except.ok
        ({ g2 with toGui := { g2.toGui with keybindings := g2.keybindings ++
          [⟨ErrMessagePanel, gocui.Key.KeyEnter, gocui.Handler.CloseMessage⟩] } } : Gui) := by
      simp only [Gui.ErrMessage, gocui.Gui.Size, hset, ne_eq, not_true_eq_false, if_false]
      erw [hsw]
      rfl
    have hn2 : ({ g2 with toGui := { g2.toGui with keybindings := g2.keybindings ++
        [⟨ErrMessagePanel, gocui.Key.KeyEnter, gocui.Handler.CloseMessage⟩] } } : Gui).viewNames
        = g2.viewNames := rfl
    have hperm2 : g2.viewNames.Perm (gui.viewNames ++ [ErrMessagePanel]) := hperm
    refine ⟨_, heq, ⟨?_, ?_, ?_⟩, ?_, ?_, hctl.NextPanel, hctl.active, hctl.PanelNames, ?_,
      fun _ => hfoc⟩
    · rw [hn2]
      exact hperm2.nodup_iff.mpr
        (List.Nodup.append hr.nodup (List.nodup_singleton _) (by simpa using hv))
    · show ∃ p, mapGet g2.Panels NavigatePanel = some p ∧ _
      rw [hctl.Panels]; exact hr.navi
    · rw [hn2]; exact hperm2.mem_iff.mpr (List.mem_append_left _ hr.naviView)
    · rw [hn2]; exact hperm2.mem_iff.mpr (by simp)
    · intro n hn; rw [hn2]; exact hperm2.mem_iff.mpr (List.mem_append_left _ hn)
    · show g2.keybindings ++ _ = _
      rw [hctl.keybindings]

theorem ConfirmMessage_ok (gui : Gui) (message : String) (f : gocui.Handler)
    (hr : gui.Ready) (hX : 0 < gui.maxX) :
    ∃ g1, gui.ConfirmMessage message f = Except.ok g1 ∧ g1.Ready ∧
      ConfirmMessagePanel ∈ g1.viewNames ∧ (∀ n, n ∈ gui.viewNames → n ∈ g1.viewNames) ∧
      g1.NextPanel = gui.NextPanel ∧ g1.active = gui.active ∧
      g1.PanelNames = gui.PanelNames ∧
      g1.keybindings = gui.keybindings ++ confirmBindings f := by
  have hx := overlay_dims gui.maxX hX
  have hy : gui.maxY.tdiv 3 < gui.maxY.tdiv 3 + 2 := by omega
  have hname : ConfirmMessagePanel ≠ "" := by decide
  by_cases hv : ConfirmMessagePanel ∈ gui.viewNames
  · obtain ⟨g1, v, hset, hvn, hnames, hcur, hkb, hmx, hmy⟩ :=
      SetView_existing gui ConfirmMessagePanel _ _ _ _ hx hy hname hv
    have heq : gui.ConfirmMessage message f = Except.ok
        ({ gui with toGui :=
          { g1 with keybindings := g1.keybindings ++ confirmBindings f } } : Gui) := by
      simp only [Gui.ConfirmMessage, gocui.Gui.Size, hset, hvn]
      simp [gocui.Gui.SetKeybinding, confirmBindings]
    have hn1 : ({ gui with toGui :=
        { g1 with keybindings := g1.keybindings ++ confirmBindings f } } : Gui).viewNames
        = gui.viewNames := hnames
    refine ⟨_, heq, ⟨?_, hr.navi, ?_⟩, ?_, ?_, rfl, rfl, rfl, ?_⟩
    · rw [hn1]; exact hr.nodup
    · rw [hn1]; exact hr.naviView
    · rw [hn1]; exact hv
    · intro n hn; rw [hn1]; exact hn
    · show g1.keybindings ++ _ = _
      rw [hkb]
  · have hset := SetView_new gui ConfirmMessagePanel _ _ _ _ hx hy hname hv
    obtain ⟨g2, w, hsw, hfoc, hperm, hctl⟩ := open_overlay gui
      ConfirmMessagePanel (gui.maxX.tdiv 5) (gui.maxY.tdiv 3) (gui.maxX - gui.maxX.tdiv 5)
      (gui.maxY.tdiv 3 + 2)
      (fun w => ({ w with Wrap := true, Title := w.name }).Write message) (fun _ => rfl) hr hv
    have heq : gui.ConfirmMessage message f = Except.ok
        ({ g2 with toGui :=
          { g2.toGui with keybindings := g2.keybindings ++ confirmBindings f } } : Gui) := by
      simp only [Gui.ConfirmMessage, gocui.Gui.Size, hset, ne_eq, not_true_eq_false, if_false]
      erw [hsw]
      simp [gocui.Gui.SetKeybinding, confirmBindings, gocui.newView]
    have hn2 : ({ g2 with toGui :=
        { g2.toGui with keybindings := g2.keybindings ++ confirmBindings f } } : Gui).viewNames
        = g2.viewNames := rfl
    refine ⟨_, heq, ⟨?_, ?_, ?_⟩, ?_, ?_, hctl.NextPanel, hctl.active, hctl.PanelNames, ?_⟩
    · rw [hn2]
      exact hperm.nodup_iff.mpr
        (List.Nodup.append hr.nodup (List.nodup_singleton _) (by simpa using hv))
    · show ∃ p, mapGet g2.Panels NavigatePanel = some p ∧ _
      rw [hctl.Panels]; exact hr.navi
    · rw [hn2]; exact hperm.mem_iff.mpr (List.mem_append_left _ hr.naviView)
    · rw [hn2]; exact hperm.mem_iff.mpr (by simp)
    · intro n hn; rw [hn2]; exact hperm.mem_iff.mpr (List.mem_append_left _ hn)
    · show g2.keybindings ++ _ = _
      rw [hctl.keybindings]

theorem CloseConfirmMessage_ok (gui : Gui) (hr : gui.Ready)
    (hv : ConfirmMessagePanel ∈ gui.viewNames)
    (hnext : gui.NextPanel ∈ gui.viewNames) (hne : gui.NextPanel ≠ ConfirmMessagePanel) :
    ∃ g2, gui.CloseConfirmMessage = Except.ok g2 ∧ g2.Focused gui.NextPanel ∧
      ConfirmMessagePanel ∉ g2.viewNames ∧
      (∀ kb ∈ g2.keybindings, kb.viewname ≠ ConfirmMessagePanel) ∧
      g2.active = gui.active ∧ g2.NextPanel = gui.NextPanel ∧
      g2.PanelNames = gui.PanelNames := by
  obtain ⟨g1, hdel, hr1, hnames, hkb, _⟩ :=
    delete_overlay gui ConfirmMessagePanel hr hv (by decide)
  have hnext1 : gui.NextPanel ∈
      ({ gui with toGui := g1.DeleteKeybindings ConfirmMessagePanel } : Gui).viewNames := by
    rw [hnames]; exact (List.mem_erase_of_ne hne).mpr hnext
  obtain ⟨g2, w, hsw, hcur, htop, hperm, hctl⟩ := SwitchPanel_ok _ _ hr1 hnext1
  refine ⟨g2, ?_, ⟨hcur, htop⟩, ?_, ?_, hctl.active, hctl.NextPanel, hctl.PanelNames⟩
  · simp only [Gui.CloseConfirmMessage, hdel, hsw]
  · intro hmem
    have := hperm.mem_iff.mp hmem
    rw [hnames] at this
    exact (List.Nodup.not_mem_erase hr.nodup) this
  · intro kb hkbm
    rw [hctl.keybindings] at hkbm
    have h1 : kb ∈ gui.keybindings.filter (fun kb => kb.viewname ≠ ConfirmMessagePanel) := by
      rw [← hkb]; exact hkbm
    simpa using (List.mem_filter.mp h1).2

theorem Line_congr (v w : gocui.View) (r r1 : Int) (hox : w.ox = v.ox)
    (hrow : w.oy + r1 = v.oy + r) (hvl : w.viewLines = v.viewLines)
    (hl : w.lines = v.lines) : w.Line r1 = v.Line r := by
  simp only [gocui.View.Line, gocui.View.realPosition, hox, hrow, hvl, hl]

theorem Line_ok_above (v : gocui.View) (hwf : ViewWF v) (r r1 : Int)
    (h0 : 0 ≤ v.oy + r1) (hle : r1 ≤ r) (h : ∃ s, v.Line r = Except.ok s) :
    ∃ s, v.Line r1 = Except.ok s := by
  obtain ⟨hox, _, _, hvl⟩ := hwf
  obtain ⟨s, hs⟩ := h
  have hneg : ¬ (v.ox + 0 < 0 ∨ v.oy + r < 0) := by omega
  have hneg1 : ¬ (v.ox + 0 < 0 ∨ v.oy + r1 < 0) := by omega
  simp only [gocui.View.Line, gocui.View.realPosition, hneg, if_false] at hs
  simp only [gocui.View.Line, gocui.View.realPosition, hneg1, if_false]
  by_cases hlen : v.viewLines.length = 0
  · simp only [hlen, if_true] at hs ⊢
    by_cases hb : v.oy + r < 0 ∨ v.oy + r ≥ (v.lines.length : Int)
    · rw [if_pos hb] at hs; cases hs
    · have hb1 : ¬ (v.oy + r1 < 0 ∨ v.oy + r1 ≥ (v.lines.length : Int)) := by omega
      simp only [hb1, if_false]
      exact ⟨_, rfl⟩
  · simp only [hlen, if_false] at hs ⊢
    by_cases h1 : v.oy + r1 < (v.viewLines.length : Int)
    · simp only [h1, if_true]
      have hidx : (v.oy + r1).toNat < v.viewLines.length := by omega
      have hmem : v.viewLines.getD (v.oy + r1).toNat ⟨0, 0⟩ ∈ v.viewLines := by
        rw [List.getD_eq_getElem?_getD, List.getElem?_eq_getElem hidx]
        exact List.getElem_mem _
      obtain ⟨ha, hb⟩ := hvl _ hmem
      have hb1 : ¬ ((v.viewLines.getD (v.oy + r1).toNat ⟨0, 0⟩).linesY < 0 ∨
          (v.viewLines.getD (v.oy + r1).toNat ⟨0, 0⟩).linesY ≥ (v.lines.length : Int)) := by
        omega
      simp only [hb1, if_false]
      exact ⟨_, rfl⟩
    · have h2 : ¬ v.oy + r < (v.viewLines.length : Int) := by omega
      simp only [h1, h2, if_false] at hs ⊢
      have hidx : v.viewLines.length - 1 < v.viewLines.length := by omega
      have hmem : v.viewLines.getD (v.viewLines.length - 1) ⟨0, 0⟩ ∈ v.viewLines := by
        rw [List.getD_eq_getElem?_getD, List.getElem?_eq_getElem hidx]
        exact List.getElem_mem _
      obtain ⟨ha, hb⟩ := hvl _ hmem
      by_cases hc : (v.viewLines.getD (v.viewLines.length - 1) ⟨0, 0⟩).linesY + (v.oy + r)
          - (v.viewLines.length : Int) + 1 < 0 ∨
          (v.viewLines.getD (v.viewLines.length - 1) ⟨0, 0⟩).linesY + (v.oy + r)
          - (v.viewLines.length : Int) + 1 ≥ (v.lines.length : Int)
      · rw [if_pos hc] at hs; cases hs
      · have hc1 : ¬ ((v.viewLines.getD (v.viewLines.length - 1) ⟨0, 0⟩).linesY + (v.oy + r1)
          - (v.viewLines.length : Int) + 1 < 0 ∨
          (v.viewLines.getD (v.viewLines.length - 1) ⟨0, 0⟩).linesY + (v.oy + r1)
          - (v.viewLines.length : Int) + 1 ≥ (v.lines.length : Int)) := by omega
        simp only [hc1, if_false]
        exact ⟨_, rfl⟩

theorem Line_ok_of_ReadLine (v : gocui.View) (r : Int) (h : ReadLine v (some r) ≠ "") :
    ∃ s, v.Line r = Except.ok s := by
  unfold ReadLine at h
  cases hl : v.Line r with
  | error e => simp [hl] at h
  | ok s => exact ⟨s, rfl⟩

theorem SetCursor_cases (v : gocui.View) (x y : Int) :
    (v.SetCursor x y = ({ v with cx := x, cy := y }, none) ∧ 0 ≤ y) ∨
      (∃ e, v.SetCursor x y = (v, some e)) := by
  by_cases h : x < 0 ∨ x ≥ v.Size.1 ∨ y < 0 ∨ y ≥ v.Size.2
  · exact Or.inr ⟨gocui.Error.invalidPoint, by simp [gocui.View.SetCursor, h]⟩
  · exact Or.inl ⟨by simp [gocui.View.SetCursor, h], by omega⟩

theorem SetOrigin_cases (v : gocui.View) (x y : Int) :
    (v.SetOrigin x y = ({ v with ox := x, oy := y }, none) ∧ 0 ≤ y) ∨
      (∃ e, v.SetOrigin x y = (v, some e)) := by
  by_cases h : x < 0 ∨ y < 0
  · exact Or.inr ⟨gocui.Error.invalidPoint, by simp [gocui.View.SetOrigin, h]⟩
  · exact Or.inl ⟨by simp [gocui.View.SetOrigin, h], by omega⟩

/-- The primitive `CursorDown` keeps the viewport on the content, or leaves the view as it was. -/
theorem CursorDown_on_content (g : gocui.Gui) (v : gocui.View) :
    ∃ v1, (CursorDown g (some v)).1 = some v1 ∧ (OnContent v1 ∨ v1 = v) := by
  by_cases hl : ReadLine v (some (v.cy + 1)) = ""
  · exact ⟨v, by simp [CursorDown, gocui.View.Cursor, hl], Or.inr rfl⟩
  · have hline := Line_ok_of_ReadLine v (v.cy + 1) hl
    rcases SetCursor_cases v v.cx (v.cy + 1) with ⟨hc, _⟩ | ⟨e, hc⟩
    · refine ⟨{ v with cx := v.cx, cy := v.cy + 1 }, ?_, Or.inl ?_⟩
      · simp [CursorDown, gocui.View.Cursor, hl, hc]
      · obtain ⟨s, hs⟩ := hline
        exact ⟨s, (Line_congr v ({ v with cx := v.cx, cy := v.cy + 1 }) (v.cy + 1) (v.cy + 1)
          rfl rfl rfl rfl).trans hs⟩
    · rcases SetOrigin_cases v v.ox (v.oy + 1) with ⟨ho, _⟩ | ⟨e1, ho⟩
      · refine ⟨{ v with ox := v.ox, oy := v.oy + 1 }, ?_, Or.inl ?_⟩
        · simp [CursorDown, gocui.View.Cursor, gocui.View.Origin, hl, hc, ho]
        · obtain ⟨s, hs⟩ := hline
          refine ⟨s, (Line_congr v ({ v with ox := v.ox, oy := v.oy + 1 }) (v.cy + 1) v.cy
            rfl ?_ rfl rfl).trans hs⟩
          show v.oy + 1 + v.cy = v.oy + (v.cy + 1)
          omega
      · exact ⟨v, by simp [CursorDown, gocui.View.Cursor, gocui.View.Origin, hl, hc, ho],
          Or.inr rfl⟩

/-- The primitive `CursorUp` keeps a well-formed viewport on the content, or leaves the view as it
was. -/
theorem CursorUp_on_content (g : gocui.Gui) (v : gocui.View) (hwf : ViewWF v)
    (h : OnContent v) :
    ∃ v1, (CursorUp g (some v)).1 = some v1 ∧ (OnContent v1 ∨ v1 = v) := by
  by_cases hg : v.name ≠ DetailPanel ∧ v.cy - 1 = 0 ∧ v.oy - 1 < 1
  · refine ⟨v, ?_, Or.inr rfl⟩
    simp only [CursorUp, gocui.View.Cursor, gocui.View.Origin]
    rw [if_pos hg]
  · rcases SetCursor_cases v v.cx (v.cy - 1) with ⟨hc, h0⟩ | ⟨e, hc⟩
    · refine ⟨{ v with cx := v.cx, cy := v.cy - 1 }, ?_, Or.inl ?_⟩
      · simp only [CursorUp, gocui.View.Cursor, gocui.View.Origin]
        rw [if_neg hg]
        simp only [hc]
      · obtain ⟨s, hs⟩ := Line_ok_above v hwf v.cy (v.cy - 1)
          (by have := hwf.2.1; omega) (by omega) h
        exact ⟨s, (Line_congr v ({ v with cx := v.cx, cy := v.cy - 1 }) (v.cy - 1) (v.cy - 1)
          rfl rfl rfl rfl).trans hs⟩
    · by_cases hoy : v.oy > 0
      · rcases SetOrigin_cases v v.ox (v.oy - 1) with ⟨ho, _⟩ | ⟨e1, ho⟩
        · refine ⟨{ v with ox := v.ox, oy := v.oy - 1 }, ?_, Or.inl ?_⟩
          · simp only [CursorUp, gocui.View.Cursor, gocui.View.Origin]
            rw [if_neg hg]
            simp only [hc, hoy, if_true, ho]
          · have hcy := hwf.2.2.1
            obtain ⟨s, hs⟩ := Line_ok_above v hwf v.cy (v.cy - 1) (by omega) (by omega) h
            refine ⟨s, (Line_congr v ({ v with ox := v.ox, oy := v.oy - 1 }) (v.cy - 1) v.cy
              rfl ?_ rfl rfl).trans hs⟩
            show v.oy - 1 + v.cy = v.oy + (v.cy - 1)
            omega
        · refine ⟨v, ?_, Or.inr rfl⟩
          simp only [CursorUp, gocui.View.Cursor, gocui.View.Origin]
          rw [if_neg hg]
          simp only [hc, hoy, if_true, ho]
      · refine ⟨v, ?_, Or.inr rfl⟩
        simp only [CursorUp, gocui.View.Cursor, gocui.View.Origin]
        rw [if_neg hg]
        simp only [hc, hoy, if_false]

/-- The primitive `PageUp` keeps a well-formed viewport on the content, or leaves the view as it
was. -/
theorem PageUp_on_content (g : gocui.Gui) (v : gocui.View) (hY : 0 ≤ g.maxY)
    (hwf : ViewWF v) (h : OnContent v) :
    ∃ v1, (PageUp g (some v)).1 = some v1 ∧ (OnContent v1 ∨ v1 = v) := by
  have hstride : 0 ≤ g.maxY.tdiv 2 := by
    rw [Int.tdiv_eq_ediv hY (by omega)]; omega
  rcases SetCursor_cases v v.cx (v.cy - g.maxY.tdiv 2) with ⟨hc, h0⟩ | ⟨e, hc⟩
  · refine ⟨{ v with cx := v.cx, cy := v.cy - g.maxY.tdiv 2 }, ?_, Or.inl ?_⟩
    · simp only [PageUp, gocui.Gui.Size, gocui.View.Cursor, gocui.View.Origin, hc]
    · obtain ⟨s, hs⟩ := Line_ok_above v hwf v.cy (v.cy - g.maxY.tdiv 2)
        (by have := hwf.2.1; omega) (by omega) h
      exact ⟨s, (Line_congr v ({ v with cx := v.cx, cy := v.cy - g.maxY.tdiv 2 })
        (v.cy - g.maxY.tdiv 2) (v.cy - g.maxY.tdiv 2) rfl rfl rfl rfl).trans hs⟩
  · by_cases hoy : v.oy > 0
    · rcases SetOrigin_cases v v.ox (v.oy - g.maxY.tdiv 2) with ⟨ho, ho0⟩ | ⟨e1, ho⟩
      · refine ⟨{ v with ox := v.ox, oy := v.oy - g.maxY.tdiv 2 }, ?_, Or.inl ?_⟩
        · simp only [PageUp, gocui.Gui.Size, gocui.View.Cursor, gocui.View.Origin, hc,
            hoy, if_true, ho]
        · have hcy := hwf.2.2.1
          obtain ⟨s, hs⟩ := Line_ok_above v hwf v.cy (v.cy - g.maxY.tdiv 2) (by omega)
            (by omega) h
          refine ⟨s, (Line_congr v ({ v with ox := v.ox, oy := v.oy - g.maxY.tdiv 2 })
            (v.cy - g.maxY.tdiv 2) v.cy rfl ?_ rfl rfl).trans hs⟩
          show v.oy - g.maxY.tdiv 2 + v.cy = v.oy + (v.cy - g.maxY.tdiv 2)
          omega
      · exact ⟨v, by simp only [PageUp, gocui.Gui.Size, gocui.View.Cursor,
          gocui.View.Origin, hc, hoy, if_true, ho], Or.inr rfl⟩
    · exact ⟨v, by simp only [PageUp, gocui.Gui.Size, gocui.View.Cursor,
        gocui.View.Origin, hc, hoy, if_false], Or.inr rfl⟩

theorem NaviUsable_of_perm (g1 g : Gui) (hn : g.NaviUsable)
    (hp : g1.viewNames.Perm g.viewNames) (hP : g1.Panels = g.Panels) : g1.NaviUsable := by
  obtain ⟨p, h1, h2, h3⟩ := hn
  exact ⟨p, by rw [hP]; exact h1, h2, hp.mem_iff.mpr h3⟩

/-- A focus switch that returns had the target view and a usable navigation bar. -/
theorem SwitchPanel_needs (gui g1 : Gui) (next : String) (v : Option gocui.View)
    (h : gui.SwitchPanel next = Except.ok (g1, v)) :
    gui.NaviUsable ∧ next ∈ gui.viewNames := by
  by_cases hv : next ∈ gui.viewNames
  · obtain ⟨v0, hfind, hvn⟩ := gocui.find_of_mem next gui.views hv
    have hnames1 : (gocui.removeFirst next gui.views ++ [v0]).map (fun v => v.name)
        = gui.viewNames.erase next ++ [next] := by
      simp [gocui.map_name_removeFirst, gocui.Gui.viewNames, hvn]
    have hperm : (gui.viewNames.erase next ++ [next]).Perm gui.viewNames := by
      have h1 := List.perm_cons_erase hv
      exact (List.perm_append_comm.trans (by simpa using h1.symm))
    cases hp : mapGet gui.Panels NavigatePanel with
    | none =>
      simp [Gui.SwitchPanel, SetCurrentPanel, gocui.Gui.SetCurrentView, gocui.Gui.View,
        hfind, gocui.Gui.SetViewOnTop, Gui.SetNaviWithPanelName, hp] at h
    | some p =>
      by_cases ht : p.type = PanelType.Navigate
      · by_cases hpv : p.Name ∈ gui.viewNames
        · exact ⟨⟨p, hp, ht, hpv⟩, hv⟩
        · have hnot : p.Name ∉ (gocui.removeFirst next gui.views ++ [v0]).map
              (fun v => v.name) := by
            rw [hnames1]; exact fun hm => hpv (hperm.mem_iff.mp hm)
          have hnone := gocui.find_none_of_not_mem p.Name _ hnot
          simp [Gui.SwitchPanel, SetCurrentPanel, gocui.Gui.SetCurrentView, gocui.Gui.View,
            hfind, gocui.Gui.SetViewOnTop, Gui.SetNaviWithPanelName, hp, ht,
            Navigate.SetNavi, hnone] at h
      · simp [Gui.SwitchPanel, SetCurrentPanel, gocui.Gui.SetCurrentView, gocui.Gui.View,
          hfind, gocui.Gui.SetViewOnTop, Gui.SetNaviWithPanelName, hp, ht] at h
  · have hnone := gocui.find_none_of_not_mem next gui.views hv
    simp [Gui.SwitchPanel, SetCurrentPanel, gocui.Gui.SetCurrentView, gocui.Gui.View,
      hnone] at h

/-- What a focus switch that returns has done. -/
theorem SwitchPanel_result (gui g1 : Gui) (next : String) (v : Option gocui.View)
    (h : gui.SwitchPanel next = Except.ok (g1, v)) :
    g1.Focused next ∧ g1.viewNames.Perm gui.viewNames ∧ g1.SameCtl gui := by
  obtain ⟨hn, hv⟩ := SwitchPanel_needs gui g1 next v h
  obtain ⟨g2, w, hsw, hcur, htop, hperm, hctl⟩ := SwitchPanel_returns gui next hn hv
  rw [h] at hsw
  injection hsw with hsw
  injection hsw with hg _
  subst hg
  exact ⟨⟨hcur, htop⟩, hperm, hctl⟩

/-- The index `nextPanel` computes. -/
theorem nextPanel_index (gui : Gui) (h0 : 0 ≤ gui.active)
    (hlt : gui.active < (gui.PanelNames.length : Int)) :
    ∃ name, goMod (gui.active + 1) (gui.PanelNames.length : Int) =
        Except.ok ((gui.active + 1) % (gui.PanelNames.length : Int)) ∧
      0 ≤ (gui.active + 1) % (gui.PanelNames.length : Int) ∧
      (gui.active + 1) % (gui.PanelNames.length : Int) < (gui.PanelNames.length : Int) ∧
      sliceGet gui.PanelNames ((gui.active + 1) % (gui.PanelNames.length : Int)) =
        Except.ok name ∧ name ∈ gui.PanelNames := by
  have hN : (0 : Int) < (gui.PanelNames.length : Int) := by omega
  have hk0 := Int.emod_nonneg (gui.active + 1) (ne_of_gt hN)
  have hk1 := Int.emod_lt_of_pos (gui.active + 1) hN
  obtain ⟨name, hname, hmem, _⟩ := sliceGet_ok gui.PanelNames _ hk0 hk1
  refine ⟨name, ?_, hk0, hk1, hname, hmem⟩
  simp [goMod, ne_of_gt hN, Int.tmod_eq_emod (show 0 ≤ gui.active + 1 by omega)
    (show 0 ≤ (gui.PanelNames.length : Int) by omega)]

/-- The index `prePanel` computes. -/
theorem prePanel_index (gui : Gui) (h0 : 0 ≤ gui.active)
    (hlt : gui.active < (gui.PanelNames.length : Int)) :
    ∃ name, prePanelIndex gui = Except.ok
        ((gui.active - 1 + (gui.PanelNames.length : Int)) % (gui.PanelNames.length : Int)) ∧
      0 ≤ (gui.active - 1 + (gui.PanelNames.length : Int)) % (gui.PanelNames.length : Int) ∧
      (gui.active - 1 + (gui.PanelNames.length : Int)) % (gui.PanelNames.length : Int)
        < (gui.PanelNames.length : Int) ∧
      sliceGet gui.PanelNames
        ((gui.active - 1 + (gui.PanelNames.length : Int)) % (gui.PanelNames.length : Int))
        = Except.ok name ∧ name ∈ gui.PanelNames := by
  have hN : (0 : Int) < (gui.PanelNames.length : Int) := by omega
  have hk0 := Int.emod_nonneg (gui.active - 1 + (gui.PanelNames.length : Int)) (ne_of_gt hN)
  have hk1 := Int.emod_lt_of_pos (gui.active - 1 + (gui.PanelNames.length : Int)) hN
  obtain ⟨name, hname, hmem, _⟩ := sliceGet_ok gui.PanelNames _ hk0 hk1
  refine ⟨name, ?_, hk0, hk1, hname, hmem⟩
  by_cases hz : gui.active - 1 < 0
  · have hkey : (gui.active - 1 + (gui.PanelNames.length : Int)) %
        (gui.PanelNames.length : Int) = (gui.PanelNames.length : Int) - 1 := by
      rw [Int.emod_eq_of_lt (by omega) (by omega)]
      omega
    simp only [prePanelIndex, hz, if_true, hkey]
  · simp only [prePanelIndex, hz, if_false, goMod, ne_of_gt hN]
    rw [Int.tmod_eq_emod (by omega) (by omega), Int.add_emod_self]

/-- What a `nextPanel` that returns has done. -/
theorem nextPanel_focus (gui g1 : Gui) (h0 : 0 ≤ gui.active)
    (hlt : gui.active < (gui.PanelNames.length : Int))
    (h : gui.nextPanel = Except.ok g1) :
    g1.active = (gui.active + 1) % (gui.PanelNames.length : Int) ∧
      g1.PanelNames = gui.PanelNames ∧ g1.Panels = gui.Panels ∧
      g1.viewNames.Perm gui.viewNames ∧
      ∃ name, sliceGet gui.PanelNames g1.active = Except.ok name ∧ g1.Focused name := by
  obtain ⟨name, hmod, _, _, hname, _⟩ := nextPanel_index gui h0 hlt
  simp only [Gui.nextPanel, hmod, hname] at h
  split at h
  · cases h
  · rename_i g2 v hsw
    injection h with h
    subst h
    obtain ⟨hfoc, hperm, hctl⟩ := SwitchPanel_result _ _ _ _ hsw
    exact ⟨rfl, hctl.PanelNames, hctl.Panels, hperm, name, hname, hfoc⟩

/-- What a `prePanel` that returns has done. -/
theorem prePanel_focus (gui g1 : Gui) (h0 : 0 ≤ gui.active)
    (hlt : gui.active < (gui.PanelNames.length : Int))
    (h : gui.prePanel = Except.ok g1) :
    g1.active = (gui.active - 1 + (gui.PanelNames.length : Int)) %
        (gui.PanelNames.length : Int) ∧
      g1.PanelNames = gui.PanelNames ∧
      ∃ name, sliceGet gui.PanelNames g1.active = Except.ok name ∧ g1.Focused name := by
  obtain ⟨name, hidx, _, _, hname, _⟩ := prePanel_index gui h0 hlt
  simp only [Gui.prePanel, hidx, hname] at h
  split at h
  · cases h
  · rename_i g2 v hsw
    injection h with h
    subst h
    obtain ⟨hfoc, _, hctl⟩ := SwitchPanel_result _ _ _ _ hsw
    exact ⟨rfl, hctl.PanelNames, name, hname, hfoc⟩

/-- The handler `nextPanel` returns when the navigation bar is usable and the next
panel has its view. -/
theorem nextPanel_returns (gui : Gui) (hn : gui.NaviUsable) (h0 : 0 ≤ gui.active)
    (hlt : gui.active < (gui.PanelNames.length : Int))
    (hv : ∀ name, sliceGet gui.PanelNames
      ((gui.active + 1) % (gui.PanelNames.length : Int)) = Except.ok name →
      name ∈ gui.viewNames) :
    ∃ g1, gui.nextPanel = Except.ok g1 := by
  obtain ⟨name, hmod, _, _, hname, _⟩ := nextPanel_index gui h0 hlt
  obtain ⟨g1, v, hsw, _⟩ := SwitchPanel_returns gui name hn (hv name hname)
  refine ⟨{ g1 with active := (gui.active + 1) % (gui.PanelNames.length : Int) }, ?_⟩
  simp only [Gui.nextPanel, hmod, hname, hsw]

/-- The handler `prePanel` returns when the navigation bar is usable and the
previous panel has its view. -/
theorem prePanel_returns (gui : Gui) (hn : gui.NaviUsable) (h0 : 0 ≤ gui.active)
    (hlt : gui.active < (gui.PanelNames.length : Int))
    (hv : ∀ name, sliceGet gui.PanelNames
      ((gui.active - 1 + (gui.PanelNames.length : Int)) % (gui.PanelNames.length : Int))
        = Except.ok name → name ∈ gui.viewNames) :
    ∃ g1, gui.prePanel = Except.ok g1 := by
  obtain ⟨name, hidx, _, _, hname, _⟩ := prePanel_index gui h0 hlt
  obtain ⟨g1, v, hsw, _⟩ := SwitchPanel_returns gui name hn (hv name hname)
  refine ⟨{ g1 with active := (gui.active - 1 + (gui.PanelNames.length : Int)) %
    (gui.PanelNames.length : Int) }, ?_⟩
  simp only [Gui.prePanel, hidx, hname, hsw]

/-- What `k` applications of `nextPanel` that all return have done. -/
theorem times_nextPanel_result (k : Nat) : ∀ (gui g1 : Gui), 0 ≤ gui.active →
    gui.active < (gui.PanelNames.length : Int) →
    times Gui.nextPanel k gui = Except.ok g1 →
    g1.active = (gui.active + (k : Int)) % (gui.PanelNames.length : Int) ∧
      g1.PanelNames = gui.PanelNames ∧
      (0 < k → ∃ name, sliceGet gui.PanelNames g1.active = Except.ok name ∧
        g1.Focused name) := by
  induction k with
  | zero =>
    intro gui g1 h0 hlt h
    simp only [times] at h
    injection h with h
    subst h
    refine ⟨?_, rfl, fun h => absurd h (by decide)⟩
    simp [Int.emod_eq_of_lt h0 hlt]
  | succ k ih =>
    intro gui g2 h0 hlt h
    have hN : (0 : Int) < (gui.PanelNames.length : Int) := by omega
    simp only [times] at h
    split at h
    · cases h
    · rename_i g1 hstep
      obtain ⟨hact, hpn, _, _, name, hname, hfoc⟩ := nextPanel_focus gui g1 h0 hlt hstep
      have h01 : 0 ≤ g1.active := by rw [hact]; exact Int.emod_nonneg _ (ne_of_gt hN)
      have hlt1 : g1.active < (g1.PanelNames.length : Int) := by
        rw [hact, hpn]; exact Int.emod_lt_of_pos _ hN
      obtain ⟨hact2, hpn2, hfoc2⟩ := ih g1 g2 h01 hlt1 h
      have hact3 : g2.active = (gui.active + ((k + 1 : Nat) : Int)) %
          (gui.PanelNames.length : Int) := by
        rw [hact2, hact, hpn, Int.emod_add_emod]
        congr 1
        push_cast
        omega
      refine ⟨hact3, hpn2.trans hpn, fun _ => ?_⟩
      rcases Nat.eq_zero_or_pos k with hk | hk
      · subst hk
        simp only [times] at h
        injection h with h
        subst h
        exact ⟨name, hname, hfoc⟩
      · obtain ⟨n2, hn2, hf2⟩ := hfoc2 hk
        exact ⟨n2, by rw [← hpn]; exact hn2, hf2⟩

/-- Any number of applications of `nextPanel` return when the navigation bar is
usable and every cyclable name has its view. -/
theorem times_nextPanel_returns (k : Nat) : ∀ (gui : Gui), gui.NaviUsable →
    gui.CycleViews → 0 ≤ gui.active → gui.active < (gui.PanelNames.length : Int) →
    ∃ g1, times Gui.nextPanel k gui = Except.ok g1 := by
  induction k with
  | zero => intro gui _ _ _ _; exact ⟨gui, rfl⟩
  | succ k ih =>
    intro gui hn hv h0 hlt
    have hN : (0 : Int) < (gui.PanelNames.length : Int) := by omega
    obtain ⟨name, _, _, _, hname, hmem⟩ := nextPanel_index gui h0 hlt
    obtain ⟨g1, hstep⟩ := nextPanel_returns gui hn h0 hlt (fun n hn1 => by
      rw [hname] at hn1
      injection hn1 with e
      subst e
      exact hv _ hmem)
    obtain ⟨hact, hpn, hP, hperm, _⟩ := nextPanel_focus gui g1 h0 hlt hstep
    have h01 : 0 ≤ g1.active := by rw [hact]; exact Int.emod_nonneg _ (ne_of_gt hN)
    have hlt1 : g1.active < (g1.PanelNames.length : Int) := by
      rw [hact, hpn]; exact Int.emod_lt_of_pos _ hN
    have hv1 : g1.CycleViews := by
      intro n hn1
      have hn2 : n ∈ gui.PanelNames := by rw [← hpn]; exact hn1
      exact hperm.mem_iff.mpr (hv n hn2)
    obtain ⟨g2, hrun⟩ := ih g1 (NaviUsable_of_perm g1 gui hn hperm hP) hv1 h01 hlt1
    exact ⟨g2, by simp only [times, hstep, hrun]⟩

/-- A `prePanel` that returns had a usable navigation bar and the view of the
previous panel. -/
theorem prePanel_needs (gui g1 : Gui) (name : String) (h0 : 0 ≤ gui.active)
    (hlt : gui.active < (gui.PanelNames.length : Int))
    (hname : sliceGet gui.PanelNames
      ((gui.active - 1 + (gui.PanelNames.length : Int)) % (gui.PanelNames.length : Int))
        = Except.ok name)
    (h : gui.prePanel = Except.ok g1) : gui.NaviUsable ∧ name ∈ gui.viewNames := by
  obtain ⟨name1, hidx, _, _, hname1, _⟩ := prePanel_index gui h0 hlt
  simp only [Gui.prePanel, hidx, hname] at h
  split at h
  · cases h
  · rename_i g2 v hsw
    exact SwitchPanel_needs _ _ _ _ hsw

/-- C1 as stated fails: `New` on an 80 by 7 terminal returns a state with four
cyclable names and active index 0 in which the volume list has no view; four
applications of `nextPanel` do not leave the index at 0 but panic with
`ErrUnknownView`, at the switch to the volume list. -/
theorem nextPanel_cyclic_closure_counterexample :
    New 80 7 silentDocker = Except.ok small ∧ small.PanelNames.length = 4 ∧
    small.active = 0 ∧ "volume list" ∈ small.PanelNames ∧
    "volume list" ∉ small.viewNames ∧
    times Gui.nextPanel 4 small = Except.error (Panic.err gocui.Error.ErrUnknownView) :=
  ⟨by rfl, by rfl, by rfl, by decide, by decide, by rfl⟩

/-- C1 (cyclic closure of `nextPanel`), amended: in every state whose cyclable
sequence has length `N ≥ 1` and whose active index `i` satisfies `0 ≤ i < N`, if `N`
applications of `nextPanel` all return, then `active` is `i` again and the view that
holds the focus and is on top is `PanelNames[i]`; they all return when the
navigation bar is usable and every cyclable name has its view. -/
theorem nextPanel_cyclic_closure (gui : Gui) (hN : 1 ≤ gui.PanelNames.length)
    (h0 : 0 ≤ gui.active) (hlt : gui.active < (gui.PanelNames.length : Int)) :
    ∃ name, sliceGet gui.PanelNames gui.active = Except.ok name ∧
      (∀ g1, times Gui.nextPanel gui.PanelNames.length gui = Except.ok g1 →
        g1.active = gui.active ∧ g1.Focused name) ∧
      (gui.NaviUsable → gui.CycleViews →
        ∃ g1, times Gui.nextPanel gui.PanelNames.length gui = Except.ok g1) := by
  obtain ⟨name, hname, _, _⟩ := sliceGet_ok gui.PanelNames gui.active h0 hlt
  refine ⟨name, hname, fun g1 hrun => ?_, fun hn hv =>
    times_nextPanel_returns gui.PanelNames.length gui hn hv h0 hlt⟩
  obtain ⟨hact, _, hfoc⟩ :=
    times_nextPanel_result gui.PanelNames.length gui g1 h0 hlt hrun
  have hsame : g1.active = gui.active := by
    rw [hact, Int.add_emod_self, Int.emod_eq_of_lt h0 hlt]
  obtain ⟨n1, hn1, hf⟩ := hfoc (by omega)
  rw [hsame, hname] at hn1
  injection hn1 with e
  subst e
  exact ⟨hsame, hf⟩

/-- C1, the scenario of the spec: from the state `New` builds on an 80 by 24 terminal
(cyclable sequence image list, container list, volume list, detail; active index
0) three applications give active index 3 with the focus on detail, and the fourth
returns to index 0 and the image list. -/
theorem nextPanel_cyclic_closure_witness :
    started.PanelNames = [ImageListPanel, ContainerListPanel, VolumeListPanel, DetailPanel] ∧
    started.active = 0 ∧
    (∃ g3, times Gui.nextPanel 3 started = Except.ok g3 ∧ g3.active = 3 ∧
      g3.currentView = some DetailPanel ∧ g3.viewNames.getLast? = some DetailPanel) ∧
    (∃ g4, times Gui.nextPanel 4 started = Except.ok g4 ∧ g4.active = 0 ∧
      g4.currentView = some ImageListPanel ∧
      g4.viewNames.getLast? = some ImageListPanel) ∧
    (∃ name, sliceGet started.PanelNames started.active = Except.ok name ∧
      (∀ g1, times Gui.nextPanel started.PanelNames.length started = Except.ok g1 →
        g1.active = started.active ∧ g1.Focused name) ∧
      (started.NaviUsable → started.CycleViews →
        ∃ g1, times Gui.nextPanel started.PanelNames.length started = Except.ok g1)) :=
  ⟨by rfl, by rfl, ⟨_, by rfl, by rfl, by rfl, by rfl⟩, ⟨_, by rfl, by rfl, by rfl, by rfl⟩,
    nextPanel_cyclic_closure started (by decide) (by decide) (by decide)⟩

/-- C2 as stated fails: in the state reached by one `prePanel` from the one `New`
builds on an 80 by 7 terminal, with the focus on the detail panel
(four cyclable names, active index 3), the previous index is 2, the volume list,
which has no view; `prePanel` does not set the index to 2 but panics with
`ErrUnknownView`. -/
theorem prePanel_wraps_counterexample :
    New 80 7 silentDocker = Except.ok small ∧
    small.prePanel = Except.ok smallAtDetail ∧ smallAtDetail.PanelNames.length = 4 ∧
    smallAtDetail.active = 3 ∧
    sliceGet smallAtDetail.PanelNames 2 = Except.ok "volume list" ∧
    "volume list" ∉ smallAtDetail.viewNames ∧
    smallAtDetail.prePanel = Except.error (Panic.err gocui.Error.ErrUnknownView) :=
  ⟨by rfl, by rfl, by rfl, by rfl, by rfl, by decide, by rfl⟩

/-- C2 (`prePanel` wraps around), amended: in every state with
`N = len(PanelNames) ≥ 1` and `0 ≤ active < N` the previous index is
`(active - 1 + N) mod N` (for Go's truncated `%` as for the mathematical one), which
is `N - 1` from `active = 0`; if `prePanel` returns, the active index is that index
and the focus is on `PanelNames` at that index; `prePanel` returns exactly when the
navigation bar is usable and the view of that panel exists. -/
theorem prePanel_wraps (gui : Gui) (hN : 1 ≤ gui.PanelNames.length)
    (h0 : 0 ≤ gui.active) (hlt : gui.active < (gui.PanelNames.length : Int)) :
    ∃ name,
      sliceGet gui.PanelNames ((gui.active - 1 + (gui.PanelNames.length : Int)) %
        (gui.PanelNames.length : Int)) = Except.ok name ∧
      (gui.active - 1 + (gui.PanelNames.length : Int)) % (gui.PanelNames.length : Int) =
        (gui.active - 1 + (gui.PanelNames.length : Int)).tmod
          (gui.PanelNames.length : Int) ∧
      (if gui.active = 0 then
        (gui.active - 1 + (gui.PanelNames.length : Int)) % (gui.PanelNames.length : Int) =
          (gui.PanelNames.length : Int) - 1
       else
        (gui.active - 1 + (gui.PanelNames.length : Int)) % (gui.PanelNames.length : Int) =
          gui.active - 1) ∧
      (∀ g1, gui.prePanel = Except.ok g1 →
        g1.active = (gui.active - 1 + (gui.PanelNames.length : Int)) %
          (gui.PanelNames.length : Int) ∧ g1.Focused name) ∧
      ((∃ g1, gui.prePanel = Except.ok g1) ↔ (gui.NaviUsable ∧ name ∈ gui.viewNames)) := by
  obtain ⟨name, _, _, _, hname, _⟩ := prePanel_index gui h0 hlt
  refine ⟨name, hname, ?_, ?_, fun g1 hrun => ?_, ⟨fun ⟨g1, hrun⟩ => ?_, fun ⟨hn, hv⟩ => ?_⟩⟩
  · rw [Int.tmod_eq_emod (by omega) (by omega)]
  · by_cases hz : gui.active = 0
    · simp only [hz, if_true]
      rw [Int.emod_eq_of_lt (by omega) (by omega)]
      omega
    · simp only [hz, if_false]
      rw [Int.add_emod_self, Int.emod_eq_of_lt (by omega) (by omega)]
  · obtain ⟨hact, _, n1, hn1, hf⟩ := prePanel_focus gui g1 h0 hlt hrun
    rw [hact, hname] at hn1
    injection hn1 with e
    subst e
    exact ⟨hact, hf⟩
  · exact prePanel_needs gui g1 name h0 hlt hname hrun
  · exact prePanel_returns gui hn h0 hlt (fun n hn1 => by
      rw [hname] at hn1
      injection hn1 with e
      subst e
      exact hv)

/-- C2 at the state `New` builds on an 80 by 24 terminal: from index 0 of four panels
`prePanel` lands on index 3, the detail panel. -/
theorem prePanel_wraps_witness :
    (∃ g1, started.prePanel = Except.ok g1 ∧ g1.active = 3 ∧
      g1.currentView = some DetailPanel ∧ g1.viewNames.getLast? = some DetailPanel) ∧
    (∃ name,
      sliceGet started.PanelNames ((started.active - 1 + (started.PanelNames.length : Int)) %
        (started.PanelNames.length : Int)) = Except.ok name ∧
      (started.active - 1 + (started.PanelNames.length : Int)) %
          (started.PanelNames.length : Int) =
        (started.active - 1 + (started.PanelNames.length : Int)).tmod
          (started.PanelNames.length : Int) ∧
      (if started.active = 0 then
        (started.active - 1 + (started.PanelNames.length : Int)) %
            (started.PanelNames.length : Int) =
          (started.PanelNames.length : Int) - 1
       else
        (started.active - 1 + (started.PanelNames.length : Int)) %
            (started.PanelNames.length : Int) =
          started.active - 1) ∧
      (∀ g1, started.prePanel = Except.ok g1 →
        g1.active = (started.active - 1 + (started.PanelNames.length : Int)) %
          (started.PanelNames.length : Int) ∧ g1.Focused name) ∧
      ((∃ g1, started.prePanel = Except.ok g1) ↔
        (started.NaviUsable ∧ name ∈ started.viewNames))) :=
  ⟨⟨_, by rfl, by rfl, by rfl, by rfl⟩,
    prePanel_wraps started (by decide) (by decide) (by decide)⟩

theorem toured_Reachable : Reachable toured :=
  Reachable.step _ _
    (Reachable.step _ _
      (Reachable.step _ _ (Reachable.init 80 24 silentDocker started started_ok)
        (Step.store started (NewPanel PanelType.Input PullImagePanel 0 0 10 10)))
      (Step.next _ (stateOf (Gui.nextPanel
        (started.StorePanels (NewPanel PanelType.Input PullImagePanel 0 0 10 10))))
        (by rfl)))
    (Step.pre _ toured (by rfl))

/-- C3 (active-index invariant): in every state reachable from the one `New` builds
through `StorePanels`, `nextPanel` and `prePanel` steps, `PanelNames` is non-empty
and `0 ≤ active < len(PanelNames)`; hence the modulo by `len(PanelNames)` and the
indexing `PanelNames[nextIndex]` succeed both in `nextPanel` and in `prePanel`. -/
theorem active_index_invariant (g : Gui) (h : Reachable g) :
    g.PanelNames ≠ [] ∧ 0 ≤ g.active ∧ g.active < (g.PanelNames.length : Int) ∧
    (∃ k name, goMod (g.active + 1) (g.PanelNames.length : Int) = Except.ok k ∧
      sliceGet g.PanelNames k = Except.ok name) ∧
    (∃ k name, prePanelIndex g = Except.ok k ∧
      sliceGet g.PanelNames k = Except.ok name) := by
  obtain ⟨hne, h0, hlt⟩ := Reachable_ActiveValid g h
  have hN : (0 : Int) < (g.PanelNames.length : Int) := by omega
  refine ⟨hne, h0, hlt, ?_, ?_⟩
  · obtain ⟨name, hname, _⟩ := sliceGet_ok g.PanelNames
      ((g.active + 1).tmod (g.PanelNames.length : Int))
      (Int.tmod_nonneg _ (by omega)) (Int.tmod_lt_of_pos _ hN)
    exact ⟨_, name, by simp [goMod, ne_of_gt hN], hname⟩
  · by_cases hz : g.active - 1 < 0
    · obtain ⟨name, hname, _⟩ := sliceGet_ok g.PanelNames
        ((g.PanelNames.length : Int) - 1) (by omega) (by omega)
      exact ⟨_, name, by simp [prePanelIndex, hz], hname⟩
    · obtain ⟨name, hname, _⟩ := sliceGet_ok g.PanelNames
        ((g.active - 1).tmod (g.PanelNames.length : Int))
        (Int.tmod_nonneg _ (by omega)) (Int.tmod_lt_of_pos _ hN)
      exact ⟨_, name, by simp [prePanelIndex, hz, goMod, ne_of_gt hN], hname⟩

/-- C3 at a state reached by one `StorePanels`, one `nextPanel` and one `prePanel`. -/
theorem active_index_invariant_witness :
    Reachable toured ∧ toured.PanelNames ≠ [] ∧ 0 ≤ toured.active ∧
    toured.active < (toured.PanelNames.length : Int) ∧
    (∃ k name, goMod (toured.active + 1) (toured.PanelNames.length : Int) = Except.ok k ∧
      sliceGet toured.PanelNames k = Except.ok name) ∧
    (∃ k name, prePanelIndex toured = Except.ok k ∧
      sliceGet toured.PanelNames k = Except.ok name) :=
  ⟨toured_Reachable, active_index_invariant toured toured_Reachable⟩

theorem mapGet_mapSet (m : List (String × Panel)) (key : String) (p : Panel) (k : String) :
    mapGet (mapSet m key p) k = if k = key then some p else mapGet m k := by
  induction m with
  | nil =>
    by_cases h : k = key
    · simp [mapSet, mapGet, h]
    · have h1 : ¬ key = k := fun e => h e.symm
      simp [mapSet, mapGet, h, h1]
  | cons e m ih =>
    unfold mapGet at ih
    by_cases he : e.1 = key
    · by_cases h : k = key
      · simp [mapSet, mapGet, he, h]
      · have h1 : ¬ key = k := fun e => h e.symm
        simp [mapSet, mapGet, he, h, h1]
    · by_cases hk : e.1 = k
      · have h : ¬ k = key := fun e1 => he (hk.trans e1)
        simp [mapSet, mapGet, he, hk, h]
      · simp only [mapSet, he, if_false, mapGet, List.find?, hk, decide_False]
        exact ih

/-- C4 (`StorePanels`): afterwards the registry maps the name of the panel to the
panel and reads every other key as before; `PanelNames` is the old sequence with the
name appended when the name is one of "image list", "container list", "detail",
"volume list", and is the old sequence otherwise.  The append is unconditional: for
a cyclable name the sequence gets one longer and holds the name once more, whether
or not it held it before. -/
theorem StorePanels_spec (g : Gui) (p : Panel) :
    (∀ k, mapGet (g.StorePanels p).Panels k =
      if k = p.Name then some p else mapGet g.Panels k) ∧
    (g.StorePanels p).PanelNames =
      (if p.Name ∈ ["image list", "container list", "detail", "volume list"]
        then g.PanelNames ++ [p.Name] else g.PanelNames) ∧
    (g.StorePanels p).PanelNames.length = g.PanelNames.length +
      (if p.Name ∈ ["image list", "container list", "detail", "volume list"]
        then 1 else 0) ∧
    (g.StorePanels p).PanelNames.count p.Name = g.PanelNames.count p.Name +
      (if p.Name ∈ ["image list", "container list", "detail", "volume list"]
        then 1 else 0) := by
  have hst : storeTarget p.Name = true ↔
      p.Name ∈ ["image list", "container list", "detail", "volume list"] := by
    simp [storeTarget, ImageListPanel, ContainerListPanel, DetailPanel, VolumeListPanel]
  have hpn := StorePanels_PanelNames g p
  refine ⟨fun k => ?_, ?_, ?_, ?_⟩
  · have hP : (g.StorePanels p).Panels = mapSet g.Panels p.Name p := by
      unfold Gui.StorePanels Gui.AddPanelNames
      by_cases h : storeTarget p.Name = true <;> simp [h]
    rw [hP]
    exact mapGet_mapSet _ _ _ _
  · rw [hpn]
    by_cases h : storeTarget p.Name = true
    · rw [if_pos h, if_pos (hst.mp h)]
    · rw [if_neg h, if_neg (fun e => h (hst.mpr e))]
  · rw [hpn]
    by_cases h : storeTarget p.Name = true
    · rw [if_pos h, if_pos (hst.mp h)]; simp
    · rw [if_neg h, if_neg (fun e => h (hst.mpr e))]; simp
  · rw [hpn]
    by_cases h : storeTarget p.Name = true
    · rw [if_pos h, if_pos (hst.mp h)]; simp
    · rw [if_neg h, if_neg (fun e => h (hst.mpr e))]; simp

/-- C5 (error overlay round trip), amended: in a state with the navigation bar
registered and a terminal at least one column wide, for every message, every return
target `t` that names an existing view other than the error overlay itself, and
every value of the active index, running the update queued by `ErrMessage(message,
t)` and then `CloseMessage` on the "error message" view succeeds and ends in a state
where `t` is the current view and the top view, no "error message" view exists and
no key binding for "error message" remains; the active index is unchanged. -/
theorem ErrMessage_CloseMessage_roundtrip (gui : Gui) (message t : String)
    (hr : gui.Ready) (hX : 0 < gui.maxX) (ht : t ∈ gui.viewNames)
    (hne : t ≠ ErrMessagePanel) :
    ∃ g1 v g2, gui.ErrMessage message t = Except.ok g1 ∧
      g1.View ErrMessagePanel = some v ∧ g1.CloseMessage v = Except.ok g2 ∧
      g2.currentView = some t ∧ g2.viewNames.getLast? = some t ∧
      ErrMessagePanel ∉ g2.viewNames ∧
      (∀ kb ∈ g2.keybindings, kb.viewname ≠ ErrMessagePanel) ∧
      g2.active = gui.active := by
  obtain ⟨g1, hopen, hr1, hmem, hkeep, hnext, hact, _, _, _⟩ :=
    ErrMessage_ok gui message t hr hX
  obtain ⟨v, hfind, hvn⟩ := gocui.find_of_mem ErrMessagePanel g1.views hmem
  have hnav : v.name ≠ NavigatePanel := by rw [hvn]; decide
  obtain ⟨g2, hclose, hfoc, hgone, hkb, hact2, _, _⟩ :=
    CloseMessage_ok g1 v hr1 (by rw [hvn]; exact hmem) hnav
      (by rw [hnext]; exact hkeep t ht) (by rw [hnext, hvn]; exact hne)
  rw [hnext] at hfoc
  rw [hvn] at hgone hkb
  exact ⟨g1, v, g2, hopen, hfind, hclose, hfoc.1, hfoc.2, hgone, hkb, hact2.trans hact⟩

/-- C5, the scenario of the spec: message "delete failed", return target "container
list", from the state `New` builds. -/
theorem ErrMessage_CloseMessage_roundtrip_witness :
    ∃ g1 v g2, started.ErrMessage "delete failed" "container list" = Except.ok g1 ∧
      g1.View ErrMessagePanel = some v ∧ g1.CloseMessage v = Except.ok g2 ∧
      g2.currentView = some "container list" ∧
      g2.viewNames.getLast? = some "container list" ∧
      ErrMessagePanel ∉ g2.viewNames ∧
      (∀ kb ∈ g2.keybindings, kb.viewname ≠ ErrMessagePanel) ∧
      g2.active = started.active :=
  ErrMessage_CloseMessage_roundtrip started "delete failed" "container list"
    started_Ready (by decide) (by decide) (by decide)

/-- C5 as stated fails: with the error overlay open, "error message" names an
existing view; `ErrMessage` with that return target followed by `CloseMessage`
panics with `ErrUnknownView`, because the focus is returned to the view that was
just deleted. -/
theorem ErrMessage_CloseMessage_counterexample :
    "error message" ∈ errorShown.viewNames ∧
    ∃ g1 v, errorShown.ErrMessage "delete failed" "error message" = Except.ok g1 ∧
      g1.View "error message" = some v ∧
      g1.CloseMessage v = Except.error (Panic.err gocui.Error.ErrUnknownView) :=
  ⟨by decide, _, _, by rfl, by rfl, by rfl⟩

/-- C6 (confirm overlay cancel): in a state with the navigation bar registered, a
terminal at least one column wide and a `NextPanel` that names an existing view
other than the overlay, for every message and every accept action `f` supplied by
the caller, `ConfirmMessage(message, f)` succeeds and adds exactly three bindings
for "confirm": `f` on `y`, `f` on Enter and `CloseConfirmMessage` (which is not `f`)
on `n`.  Running the handler bound to `n` gives the same state whatever `f` does,
so `f` is not invoked; in that state the "confirm" view and every key binding for
"confirm" are gone, `NextPanel` is the current and top view, and `NextPanel` and
the active index are what they were. -/
theorem ConfirmMessage_cancel (gui : Gui) (message : String) (id : Nat)
    (hr : gui.Ready) (hX : 0 < gui.maxX) (hnext : gui.NextPanel ∈ gui.viewNames)
    (hne : gui.NextPanel ≠ ConfirmMessagePanel) :
    ∃ g1 g2, gui.ConfirmMessage message (gocui.Handler.callback id) = Except.ok g1 ∧
      g1.keybindings = gui.keybindings ++
        [⟨"confirm", gocui.Key.rune 'y', gocui.Handler.callback id⟩,
         ⟨"confirm", gocui.Key.KeyEnter, gocui.Handler.callback id⟩,
         ⟨"confirm", gocui.Key.rune 'n', gocui.Handler.CloseConfirmMessage⟩] ∧
      handlersFor g1.toGui "confirm" (gocui.Key.rune 'n') =
        handlersFor gui.toGui "confirm" (gocui.Key.rune 'n') ++
          [gocui.Handler.CloseConfirmMessage] ∧
      handlersFor g1.toGui "confirm" (gocui.Key.rune 'y') =
        handlersFor gui.toGui "confirm" (gocui.Key.rune 'y') ++
          [gocui.Handler.callback id] ∧
      handlersFor g1.toGui "confirm" gocui.Key.KeyEnter =
        handlersFor gui.toGui "confirm" gocui.Key.KeyEnter ++
          [gocui.Handler.callback id] ∧
      gocui.Handler.CloseConfirmMessage ≠ gocui.Handler.callback id ∧
      (∀ cb v, g1.runHandler cb gocui.Handler.CloseConfirmMessage v = Except.ok g2) ∧
      "confirm" ∉ g2.viewNames ∧ (∀ kb ∈ g2.keybindings, kb.viewname ≠ "confirm") ∧
      g2.currentView = some gui.NextPanel ∧
      g2.viewNames.getLast? = some gui.NextPanel ∧
      g2.NextPanel = gui.NextPanel ∧ g2.active = gui.active := by
  obtain ⟨g1, hopen, hr1, hmem, hkeep, hn1, hact1, _, hkb1⟩ :=
    ConfirmMessage_ok gui message (gocui.Handler.callback id) hr hX
  obtain ⟨g2, hclose, hfoc, hgone, hkb2, hact2, hn2, _⟩ :=
    CloseConfirmMessage_ok g1 hr1 hmem (by rw [hn1]; exact hkeep _ hnext)
      (by rw [hn1]; exact hne)
  rw [hn1] at hfoc
  have hfor : ∀ key, handlersFor g1.toGui "confirm" key =
      handlersFor gui.toGui "confirm" key ++
        ((confirmBindings (gocui.Handler.callback id)).filter
          (fun kb => kb.viewname = "confirm" ∧ kb.key = key)).map (fun kb => kb.handler) := by
    intro key
    simp [handlersFor, hkb1]
  refine ⟨g1, g2, hopen, hkb1, ?_, ?_, ?_, by simp, fun _ _ => hclose, hgone, hkb2,
    hfoc.1, hfoc.2, hn2.trans hn1, hact2.trans hact1⟩
  · rw [hfor]; rfl
  · rw [hfor]; rfl
  · rw [hfor]; rfl

/-- C6 at the state `New` builds, for the accept action 7. -/
theorem ConfirmMessage_cancel_witness :
    ∃ g1 g2, started.ConfirmMessage "remove?" (gocui.Handler.callback 7) = Except.ok g1 ∧
      g1.keybindings = started.keybindings ++
        [⟨"confirm", gocui.Key.rune 'y', gocui.Handler.callback 7⟩,
         ⟨"confirm", gocui.Key.KeyEnter, gocui.Handler.callback 7⟩,
         ⟨"confirm", gocui.Key.rune 'n', gocui.Handler.CloseConfirmMessage⟩] ∧
      handlersFor g1.toGui "confirm" (gocui.Key.rune 'n') =
        handlersFor started.toGui "confirm" (gocui.Key.rune 'n') ++
          [gocui.Handler.CloseConfirmMessage] ∧
      handlersFor g1.toGui "confirm" (gocui.Key.rune 'y') =
        handlersFor started.toGui "confirm" (gocui.Key.rune 'y') ++
          [gocui.Handler.callback 7] ∧
      handlersFor g1.toGui "confirm" gocui.Key.KeyEnter =
        handlersFor started.toGui "confirm" gocui.Key.KeyEnter ++
          [gocui.Handler.callback 7] ∧
      gocui.Handler.CloseConfirmMessage ≠ gocui.Handler.callback 7 ∧
      (∀ cb v, g1.runHandler cb gocui.Handler.CloseConfirmMessage v = Except.ok g2) ∧
      "confirm" ∉ g2.viewNames ∧ (∀ kb ∈ g2.keybindings, kb.viewname ≠ "confirm") ∧
      g2.currentView = some started.NextPanel ∧
      g2.viewNames.getLast? = some started.NextPanel ∧
      g2.NextPanel = started.NextPanel ∧ g2.active = started.active :=
  ConfirmMessage_cancel started "remove?" 7 started_Ready (by decide) (by decide)
    (by decide)

/-- C9 as stated fails: in the state `New` builds, "container list" is at position 1
of the cyclable sequence and the active index is 0; `SwitchPanel("container list")`
succeeds, gives it the focus, and leaves the active index at 0. -/
theorem SwitchPanel_index_counterexample :
    started.PanelNames.indexOf "container list" = 1 ∧
    ∃ g1 v, started.SwitchPanel "container list" = Except.ok (g1, v) ∧
      g1.currentView = some "container list" ∧ g1.active = 0 :=
  ⟨by decide, _, _, by rfl, by rfl, by rfl⟩

/-- C9, amended: `SwitchPanel(name)` never changes the active index, whether or not
`name` occurs in the cyclable sequence.  In a state with the navigation bar
registered, for every name of an existing view it succeeds and makes that view the
current and top view, leaving `active`, `PanelNames` and `NextPanel` as they were;
only `nextPanel` and `prePanel` assign the index. -/
theorem SwitchPanel_keeps_active (gui : Gui) (name : String) (hr : gui.Ready)
    (hn : name ∈ gui.viewNames) :
    ∃ g1 v, gui.SwitchPanel name = Except.ok (g1, v) ∧ g1.active = gui.active ∧
      g1.PanelNames = gui.PanelNames ∧ g1.NextPanel = gui.NextPanel ∧
      g1.currentView = some name ∧ g1.viewNames.getLast? = some name := by
  obtain ⟨g1, v, hsw, hcur, htop, _, hctl⟩ := SwitchPanel_ok gui name hr hn
  exact ⟨g1, v, hsw, hctl.active, hctl.PanelNames, hctl.NextPanel, hcur, htop⟩

/-- C9 amended, at the state `New` builds: once for a cyclable name and once for the
navigation bar, which is not cyclable. -/
theorem SwitchPanel_keeps_active_witness :
    (∃ g1 v, started.SwitchPanel "detail" = Except.ok (g1, v) ∧
      g1.active = started.active ∧ g1.PanelNames = started.PanelNames ∧
      g1.NextPanel = started.NextPanel ∧ g1.currentView = some "detail" ∧
      g1.viewNames.getLast? = some "detail") ∧
    "detail" ∈ started.PanelNames ∧ "navigate" ∉ started.PanelNames ∧
    "navigate" ∈ started.viewNames :=
  ⟨SwitchPanel_keeps_active started "detail" started_Ready (by decide), by decide,
    by decide, by decide⟩

/-- C7 (`CursorDown` stops at the end of content): for every non-nil view, when the
line at view row `cursor.row + 1` cannot be read, or is empty once the surrounding
spaces are trimmed, `ReadLine` returns "" and `CursorDown` returns no error and
leaves the view, so its cursor and its origin, unchanged. -/
theorem CursorDown_end_of_content (g : gocui.Gui) (v : gocui.View)
    (h : (∃ e, v.Line (v.cy + 1) = Except.error e) ∨
      (∃ s, v.Line (v.cy + 1) = Except.ok s ∧ trimSpaces s = "")) :
    ReadLine v (some (v.cy + 1)) = "" ∧ CursorDown g (some v) = (some v, none) := by
  have hr : ReadLine v (some (v.cy + 1)) = "" := by
    rcases h with ⟨e, he⟩ | ⟨s, hs, ht⟩
    · simp only [ReadLine, he]
    · simp only [ReadLine, hs, ht]
  exact ⟨hr, by simp only [CursorDown, gocui.View.Cursor, hr, if_true]⟩

/-- C7, the scenario of the spec: origin row 0, cursor row 0, content "a", "b", "" in
a view four rows high; the first `CursorDown` moves the cursor to row 1 and keeps
the origin, the second changes nothing because row 2 is empty. -/
theorem CursorDown_end_of_content_witness :
    listView.cy = 0 ∧ listView.oy = 0 ∧ listView.lines = ["a", "b", ""] ∧
    CursorDown started.toGui (some listView) = (some { listView with cy := 1 }, none) ∧
    ReadLine { listView with cy := 1 } (some (({ listView with cy := 1 } : gocui.View).cy + 1))
      = "" ∧
    CursorDown started.toGui (some { listView with cy := 1 })
      = (some { listView with cy := 1 }, none) :=
  ⟨by rfl, by rfl, by rfl, by rfl,
    CursorDown_end_of_content started.toGui { listView with cy := 1 }
      (Or.inr ⟨"", by rfl, by rfl⟩)⟩

/-- C8 (`CursorUp` protects the header row of list panels): for every non-nil view
with origin row 0 and cursor row 1, if its name is not "detail" then `CursorUp`
returns no error and leaves the view, so cursor and origin, unchanged; if its name
is "detail" (and the cursor lies inside the window) the cursor moves to row 0. -/
theorem CursorUp_header_row (g : gocui.Gui) (v : gocui.View) (hoy : v.oy = 0)
    (hcy : v.cy = 1) :
    (v.name ≠ "detail" → CursorUp g (some v) = (some v, none)) ∧
    (v.name = "detail" → CursorInWindow v →
      CursorUp g (some v) = (some { v with cy := 0 }, none)) := by
  constructor
  · intro hn
    have hn1 : v.name ≠ DetailPanel := hn
    simp [CursorUp, gocui.View.Cursor, gocui.View.Origin, hoy, hcy, hn1]
  · intro hn hw
    have hn1 : v.name = DetailPanel := hn
    obtain ⟨h1, h2, h3, h4⟩ := hw
    have hs : ¬ (v.cx < 0 ∨ v.cx ≥ v.Size.1 ∨ (0 : Int) < 0 ∨ 0 ≥ v.Size.2) := by omega
    simp only [CursorUp, gocui.View.Cursor, gocui.View.Origin, hoy, hcy, hn1, ne_eq,
      not_true_eq_false, false_and, if_false, gocui.View.SetCursor, Int.sub_self]
    simp only [hs, if_false]

/-- C8 at a list view and at the detail view, both with origin row 0 and cursor
row 1. -/
theorem CursorUp_header_row_witness :
    CursorUp started.toGui (some { listView with cy := 1 })
      = (some { listView with cy := 1 }, none) ∧
    CursorUp started.toGui (some { listView with name := "detail", cy := 1 })
      = (some { listView with name := "detail", cy := 0 }, none) :=
  ⟨(CursorUp_header_row started.toGui { listView with cy := 1 } (by rfl) (by rfl)).1
      (by decide),
    (CursorUp_header_row started.toGui { listView with name := "detail", cy := 1 }
      (by rfl) (by rfl)).2 (by rfl) ⟨by decide, by decide, by decide, by decide⟩⟩

/-- C10 fails for `PageDown`: on an 80 by 24 terminal, in the detail view (20 rows
high) whose content is the single line "a" with cursor and origin at row 0 (a row
of the content), `PageDown` returns no error and moves the cursor to row 12, where
`View.Line` fails: the row is outside the content and the move was applied. -/
theorem PageDown_leaves_content :
    started.toGui.maxY = 24 ∧ shortView.Line shortView.cy = Except.ok "a" ∧
    PageDown started.toGui (some shortView) = (some { shortView with cy := 12 }, none) ∧
    ({ shortView with cy := 12 } : gocui.View).Line 12
      = Except.error gocui.Error.invalidPoint ∧
    ({ shortView with cy := 12 } : gocui.View).cy ≠ shortView.cy :=
  ⟨by rfl, by rfl, by rfl, by rfl, by decide⟩

end panel
